import Mathlib

/-!
# Socket_DSP: ring buffer, transfer helpers, audio bridge, network pump, spectral transform

A shallow embedding of `Windows_Audio_Client/audio_client.cpp` and
`WSL_DSP_Server/dsp_server.cpp`.

* Sample buffers (`float*`, `float[BLOCK_SIZE]`, `std::array<float, BLOCK_SIZE>`) are lists of
  samples over an arbitrary sample type `α`; the code only ever copies samples with `memcpy`,
  so nothing depends on what a sample is.
* `size_t` values are `Nat`; the one narrowing conversion in the code
  (`static_cast<int>(bytes - total)`) is modelled with explicit wrap-around.
* The atomics are read and written as plain fields: every statement below is about a
  sequential interleaving of whole `push`/`pop` calls.
-/

namespace SocketDSP

/-! ## Constants (`audio_client.cpp` lines 24-29, `dsp_server.cpp` lines 20-22) -/

/-- The block length in frames, `constexpr unsigned int BLOCK_SIZE = 1024`. -/
def BLOCK_SIZE : Nat := 1024

/-- The size of a `float` in bytes. -/
def SIZEOF_FLOAT : Nat := 4

/-- The block length in bytes, `BLOCK_SIZE * sizeof(float)`. -/
def BLOCK_BYTES : Nat := BLOCK_SIZE * SIZEOF_FLOAT

/-- The call `std::memcpy(dst, src, n * sizeof(float))` on sample buffers: the first `n`
samples of `dst` are replaced by the first `n` samples of `src`. -/
def memcpy {α : Type} (dst src : List α) (n : Nat) : List α :=
  src.take n ++ dst.drop n

/-! ## `SpscRingBuffer` (`audio_client.cpp` lines 32-78) -/

/-- The class `SpscRingBuffer<NumBlocks>`: the slot array and the two indices. -/
structure SpscRingBuffer (α : Type) (NumBlocks : Nat) where
  /-- The member `std::array<std::array<float, BLOCK_SIZE>, NumBlocks> buffer_`. -/
  buffer_ : List (List α)
  /-- The member `std::atomic<size_t> writeIndex_`. -/
  writeIndex_ : Nat
  /-- The member `std::atomic<size_t> readIndex_`. -/
  readIndex_ : Nat
deriving DecidableEq, Repr

namespace SpscRingBuffer

variable {α : Type} {NumBlocks : Nat}

/-- The constructor `SpscRingBuffer() : writeIndex_(0), readIndex_(0) {}`. The slot array is
left uninitialised by the code, so its initial contents `slots` are arbitrary. -/
def construct (NumBlocks : Nat) (slots : List (List α)) : SpscRingBuffer α NumBlocks :=
  { buffer_ := slots, writeIndex_ := 0, readIndex_ := 0 }

/-- The method `bool push(const float* data)`: the returned flag and the ring afterwards. -/
def push (r : SpscRingBuffer α NumBlocks) (data : List α) :
    Bool × SpscRingBuffer α NumBlocks :=
  let currentWrite := r.writeIndex_
  let nextWrite := (currentWrite + 1) % NumBlocks
  let currentRead := r.readIndex_
  if nextWrite = currentRead then
    (false, r)
  else
    (true,
      { r with
        buffer_ := r.buffer_.set currentWrite
          (memcpy (r.buffer_.getD currentWrite []) data BLOCK_SIZE)
        writeIndex_ := nextWrite })

/-- The method `bool pop(float* out)`: the returned flag, the caller's buffer afterwards and
the ring afterwards. -/
def pop (r : SpscRingBuffer α NumBlocks) (out : List α) :
    Bool × List α × SpscRingBuffer α NumBlocks :=
  let currentRead := r.readIndex_
  let currentWrite := r.writeIndex_
  if currentRead = currentWrite then
    (false, out, r)
  else
    let out1 := memcpy out (r.buffer_.getD currentRead []) BLOCK_SIZE
    let nextRead := (currentRead + 1) % NumBlocks
    (true, out1, { r with readIndex_ := nextRead })

/-- The ring is full: `(write + 1) mod NumBlocks == read`. -/
def isFull (r : SpscRingBuffer α NumBlocks) : Prop :=
  (r.writeIndex_ + 1) % NumBlocks = r.readIndex_

/-- The ring is empty: `write == read`. -/
def isEmpty (r : SpscRingBuffer α NumBlocks) : Prop :=
  r.readIndex_ = r.writeIndex_

instance (r : SpscRingBuffer α NumBlocks) : Decidable r.isFull := by
  unfold isFull; infer_instance

instance (r : SpscRingBuffer α NumBlocks) : Decidable r.isEmpty := by
  unfold isEmpty; infer_instance

/-- The number of stored blocks, counted from the read index up to the write index. -/
def count (r : SpscRingBuffer α NumBlocks) : Nat :=
  (r.writeIndex_ + NumBlocks - r.readIndex_) % NumBlocks

/-- The stored blocks, oldest first: the slots from the read index up to the write index. -/
def contents (r : SpscRingBuffer α NumBlocks) : List (List α) :=
  (List.range r.count).map
    (fun i => (r.buffer_.getD ((r.readIndex_ + i) % NumBlocks) []).take BLOCK_SIZE)

/-- The representation invariant: one slot per index and both indices in range. -/
structure WF (r : SpscRingBuffer α NumBlocks) : Prop where
  slots : r.buffer_.length = NumBlocks
  write_lt : r.writeIndex_ < NumBlocks
  read_lt : r.readIndex_ < NumBlocks

end SpscRingBuffer

/-! ## Sequential runs of ring operations -/

/-- One call on a ring by its producer or its consumer. -/
inductive RingOp (α : Type) where
  /-- The call `push(data)`. -/
  | push (data : List α)
  /-- The call `pop(out)` on a caller buffer holding `out`. -/
  | pop (out : List α)
deriving DecidableEq, Repr

/-- What one call returned. -/
inductive RingEvent (α : Type) where
  /-- The call `push(data)` returned `ok`. -/
  | pushed (ok : Bool) (data : List α)
  /-- The call `pop(out)` returned `ok` and left `out` in the caller's buffer. -/
  | popped (ok : Bool) (out : List α)
deriving DecidableEq, Repr

/-- The buffer handed to a call holds exactly one block. -/
def RingOp.blockSized {α : Type} : RingOp α → Prop
  | .push data => data.length = BLOCK_SIZE
  | .pop out => out.length = BLOCK_SIZE

/-- The flag a call returned. -/
def RingEvent.ok {α : Type} : RingEvent α → Bool
  | .pushed ok _ => ok
  | .popped ok _ => ok

/-- Applies the calls of `ops` in order and records what each returned. -/
def runOps {α : Type} {NumBlocks : Nat} :
    List (RingOp α) → SpscRingBuffer α NumBlocks →
      List (RingEvent α) × SpscRingBuffer α NumBlocks
  | [], r => ([], r)
  | .push data :: ops, r =>
      let res := r.push data
      let rest := runOps ops res.2
      (.pushed res.1 data :: rest.1, rest.2)
  | .pop out :: ops, r =>
      let res := r.pop out
      let rest := runOps ops res.2.2
      (.popped res.1 res.2.1 :: rest.1, rest.2)

/-- The blocks handed to the pushes that returned true, in call order. -/
def accepted {α : Type} (evs : List (RingEvent α)) : List (List α) :=
  evs.filterMap fun
    | .pushed true data => some data
    | _ => none

/-- The blocks delivered by the pops that returned true, in call order. -/
def delivered {α : Type} (evs : List (RingEvent α)) : List (List α) :=
  evs.filterMap fun
    | .popped true out => some out
    | _ => none

/-! ## `sendAll` and `recvAll` (`audio_client.cpp` lines 91-115, `dsp_server.cpp` lines 30-54)

The four helpers are the same loop around one transport call (`send` or `recv`). The transport
is the sequence of counts its successive calls return; the result records every call made. -/

/-- One transport call made by the loop: `n = recv(sock, buf + total, len, 0)`. -/
structure IoCall where
  /-- The offset `total` added to `buf`, in bytes. -/
  offset : Nat
  /-- The length argument. -/
  len : Int
  /-- The returned count `n`. -/
  ret : Int
deriving DecidableEq, Repr

/-- What a helper returned, the value of `total` when it returned, and the calls it made. -/
structure IoResult where
  /-- The returned flag. -/
  ok : Bool
  /-- The local `total` at the return. -/
  total : Nat
  /-- The transport calls made, in order. -/
  calls : List IoCall
deriving DecidableEq, Repr

/-- The conversion `static_cast<int>(x)` of a `size_t` to a 32-bit `int` (two's complement
wrap-around). -/
def castInt (x : Nat) : Int :=
  if x % 2 ^ 32 < 2 ^ 31 then ((x % 2 ^ 32 : Nat) : Int) else ((x % 2 ^ 32 : Nat) : Int) - 2 ^ 32

/-- The loop `while (total < bytes) { n = call(buf + total, lenArg(bytes - total)); if (n <= 0)
return false; total += size_t(n); } return true;` started with the local `total` and with the
transport about to make its call number `i`. -/
def transferLoop (lenArg : Nat → Int) (io : Nat → Int) (bytes : Nat) (total i : Nat) :
    IoResult :=
  if total < bytes then
    let n := io i
    let call : IoCall := { offset := total, len := lenArg (bytes - total), ret := n }
    if n ≤ 0 then
      { ok := false, total := total, calls := [call] }
    else
      let rest := transferLoop lenArg io bytes (total + n.toNat) (i + 1)
      { ok := rest.ok, total := rest.total, calls := call :: rest.calls }
  else
    { ok := true, total := total, calls := [] }
termination_by bytes - total
decreasing_by omega

namespace Server

/-- The server helper `bool recvAll(int sockfd, void* buffer, size_t bytes)`: the length argument
is the `size_t` value `bytes - total`. -/
def recvAll (recv : Nat → Int) (bytes : Nat) : IoResult :=
  transferLoop (fun missing => (missing : Int)) recv bytes 0 0

/-- The server helper `bool sendAll(int sockfd, const void* buffer, size_t bytes)`. -/
def sendAll (send : Nat → Int) (bytes : Nat) : IoResult :=
  transferLoop (fun missing => (missing : Int)) send bytes 0 0

end Server

namespace Client

/-- The client helper `bool recvAll(SOCKET sock, void* buffer, size_t bytes)`: the length
argument is `static_cast<int>(bytes - total)`. -/
def recvAll (recv : Nat → Int) (bytes : Nat) : IoResult :=
  transferLoop castInt recv bytes 0 0

/-- The client helper `bool sendAll(SOCKET sock, const void* buffer, size_t bytes)`. -/
def sendAll (send : Nat → Int) (bytes : Nat) : IoResult :=
  transferLoop castInt send bytes 0 0

end Client

/-- The struct `SharedState`: the running flag and the two rings of eight slots. -/
structure SharedState (α : Type) where
  /-- The member `std::atomic<bool> running{true}`. -/
  running : Bool
  /-- The member `SpscRingBuffer<8> inputRing`, from the audio callback to the network. -/
  inputRing : SpscRingBuffer α 8
  /-- The member `SpscRingBuffer<8> outputRing`, from the network to the audio callback. -/
  outputRing : SpscRingBuffer α 8
deriving DecidableEq, Repr

/-- The outcome of one `audioCallback` invocation. -/
structure CallbackResult (α : Type) where
  /-- The returned `int`. -/
  ret : Int
  /-- The output buffer afterwards. -/
  outputBuffer : List α
  /-- The shared state afterwards. -/
  state : SharedState α
deriving DecidableEq, Repr

/-- The function `audioCallback(outputBuffer, inputBuffer, nFrames, streamTime, status,
userData)`. The local array `float processed[BLOCK_SIZE]` is uninitialised in the code, so its
contents at entry are the argument `processed`. The arguments `streamTime` and `status` are
not used by the code. The byte counts `nFrames * sizeof(float)` and `BLOCK_BYTES` are `size_t`
values that cannot wrap for a buffer that fits in memory, so `memcpy` is given sample counts. -/
def audioCallback {α : Type} (outputBuffer inputBuffer : List α) (nFrames : Nat)
    (state : SharedState α) (processed : List α) : CallbackResult α :=
  if nFrames ≠ BLOCK_SIZE then
    { ret := 0, outputBuffer := memcpy outputBuffer inputBuffer nFrames, state := state }
  else
    let pushed := state.inputRing.push inputBuffer
    let state1 := { state with inputRing := pushed.2 }
    let popped := state1.outputRing.pop processed
    let state2 := { state1 with outputRing := popped.2.2 }
    if popped.1 then
      { ret := 0, outputBuffer := memcpy outputBuffer popped.2.1 BLOCK_SIZE, state := state2 }
    else
      { ret := 0, outputBuffer := memcpy outputBuffer inputBuffer BLOCK_SIZE, state := state2 }

/-! ## `connectToServer` and `networkThreadFunc` (`audio_client.cpp` lines 117-197)

The network thread is a machine whose locations are the statements of the two functions. Each
step runs one statement, reads what the outside world answers from an `Env`, and emits at most
one action of the trace. -/

/-- The call sites of `::closesocket`. -/
inductive CloseSite where
  /-- Line 134, after `inet_pton` failed. -/
  | inetFailed
  /-- Line 142, after `::connect` failed. -/
  | connectFailed
  /-- Line 192, after the inner loop of `networkThreadFunc` was left. -/
  | disconnect
deriving DecidableEq, Repr

/-- The actions of the network thread that the trace records. -/
inductive Action where
  /-- The call `::socket(...)` and whether it gave a valid socket. -/
  | socket (ok : Bool)
  /-- The call `::connect(...)` and whether it succeeded. -/
  | connect (ok : Bool)
  /-- The call `sendAll(sock, inBlock, BLOCK_BYTES)` and what it returned. -/
  | send (ok : Bool)
  /-- The call `recvAll(sock, outBlock, BLOCK_BYTES)` and what it returned. -/
  | receive (ok : Bool)
  /-- The call `::closesocket(sock)` at the given site. -/
  | close (site : CloseSite)
  /-- The retry delay `sleep_for(std::chrono::seconds(1))`. -/
  | sleepRetry
  /-- The polling delay `sleep_for(std::chrono::milliseconds(1))`. -/
  | sleepPoll
deriving DecidableEq, Repr

/-- The locations of the network thread. -/
inductive Loc where
  /-- Line 157, the test of `while (state->running.load())` in `networkThreadFunc`. -/
  | outerCheck
  /-- Line 120, the test of `while (running.load())` in `connectToServer`. -/
  | connCheck
  /-- Line 121, `::socket(...)`. -/
  | connSocket
  /-- Line 124, the retry delay after `socket()` failed. -/
  | connSocketSleep
  /-- Line 132, `inet_pton(...)`. -/
  | connInet
  /-- Line 134, `::closesocket(sock)` after `inet_pton` failed. -/
  | connInetClose
  /-- Line 139, `::connect(...)`. -/
  | connConnect
  /-- Line 142, `::closesocket(sock)` after `::connect` failed. -/
  | connFailClose
  /-- Line 143, the retry delay after `::connect` failed. -/
  | connFailSleep
  /-- Line 166, the test of the inner `while (state->running.load())`. -/
  | innerCheck
  /-- Line 167, `state->inputRing.pop(inBlock)`. -/
  | innerPop
  /-- Line 169, the polling delay after the pop found the ring empty. -/
  | innerPollSleep
  /-- Line 174, `sendAll(sock, inBlock, BLOCK_BYTES)`. -/
  | innerSend
  /-- Line 180, `recvAll(sock, outBlock, BLOCK_BYTES)`. -/
  | innerRecv
  /-- Line 186, `state->outputRing.push(outBlock)`. -/
  | innerPush
  /-- Line 192, `::closesocket(sock)` after the inner loop. -/
  | disconnect
  /-- Line 196, the thread has left its outer loop. -/
  | exited
deriving DecidableEq, Repr

/-- The state of the network thread: its location, the shared state, its two local blocks and
whether it holds an open socket. -/
structure PumpState (α : Type) where
  /-- The statement about to run. -/
  loc : Loc
  /-- The shared state `*state`. -/
  shared : SharedState α
  /-- The local `float inBlock[BLOCK_SIZE]`. -/
  inBlock : List α
  /-- The local `float outBlock[BLOCK_SIZE]`. -/
  outBlock : List α
  /-- Whether `sock` is an open socket. -/
  sockOpen : Bool
deriving DecidableEq, Repr

/-- One invocation of the audio callback by the audio hardware. -/
structure AudioCall (α : Type) where
  /-- The output buffer at entry. -/
  outputBuffer : List α
  /-- The captured input. -/
  inputBuffer : List α
  /-- The frame count. -/
  nFrames : Nat
  /-- The contents of the local array `processed` at entry. -/
  processed : List α
deriving DecidableEq, Repr

/-- What the outside world does around one step of the network thread. -/
structure Env (α : Type) where
  /-- The main thread stores false into `running` before the step. -/
  stop : Bool
  /-- The audio callback runs before the step. -/
  audio : Option (AudioCall α)
  /-- Whether `::socket` gives a valid socket. -/
  socketOk : Bool
  /-- Whether `inet_pton` returns a value `> 0`. -/
  inetOk : Bool
  /-- Whether `::connect` succeeds. -/
  connectOk : Bool
  /-- The counts the successive `::send` calls of one `sendAll` return. -/
  sendCounts : Nat → Int
  /-- The counts the successive `::recv` calls of one `recvAll` return. -/
  recvCounts : Nat → Int
  /-- The contents of `outBlock` after `recvAll`. -/
  received : List α

/-- One statement of the network thread: the state afterwards and the action emitted. -/
def pumpStep {α : Type} (env : Env α) (s : PumpState α) : PumpState α × Option Action :=
  match s.loc with
  | .outerCheck =>
      if s.shared.running then ({ s with loc := .connCheck }, none)
      else ({ s with loc := .exited }, none)
  | .connCheck =>
      if s.shared.running then ({ s with loc := .connSocket }, none)
      else ({ s with loc := .exited }, none)
  | .connSocket =>
      if env.socketOk then ({ s with loc := .connInet, sockOpen := true }, some (.socket true))
      else ({ s with loc := .connSocketSleep }, some (.socket false))
  | .connSocketSleep => ({ s with loc := .connCheck }, some .sleepRetry)
  | .connInet =>
      if env.inetOk then ({ s with loc := .connConnect }, none)
      else ({ s with loc := .connInetClose }, none)
  | .connInetClose => ({ s with loc := .exited, sockOpen := false }, some (.close .inetFailed))
  | .connConnect =>
      if env.connectOk then ({ s with loc := .innerCheck }, some (.connect true))
      else ({ s with loc := .connFailClose }, some (.connect false))
  | .connFailClose =>
      ({ s with loc := .connFailSleep, sockOpen := false }, some (.close .connectFailed))
  | .connFailSleep => ({ s with loc := .connCheck }, some .sleepRetry)
  | .innerCheck =>
      if s.shared.running then ({ s with loc := .innerPop }, none)
      else ({ s with loc := .disconnect }, none)
  | .innerPop =>
      let popped := s.shared.inputRing.pop s.inBlock
      let s1 := { s with shared := { s.shared with inputRing := popped.2.2 }, inBlock := popped.2.1 }
      if popped.1 then ({ s1 with loc := .innerSend }, none)
      else ({ s1 with loc := .innerPollSleep }, none)
  | .innerPollSleep => ({ s with loc := .innerCheck }, some .sleepPoll)
  | .innerSend =>
      if (Client.sendAll env.sendCounts BLOCK_BYTES).ok then
        ({ s with loc := .innerRecv }, some (.send true))
      else ({ s with loc := .disconnect }, some (.send false))
  | .innerRecv =>
      if (Client.recvAll env.recvCounts BLOCK_BYTES).ok then
        ({ s with loc := .innerPush, outBlock := env.received }, some (.receive true))
      else ({ s with loc := .disconnect, outBlock := env.received }, some (.receive false))
  | .innerPush =>
      let pushed := s.shared.outputRing.push s.outBlock
      ({ s with loc := .innerCheck, shared := { s.shared with outputRing := pushed.2 } }, none)
  | .disconnect => ({ s with loc := .outerCheck, sockOpen := false }, some (.close .disconnect))
  | .exited => (s, none)

/-- What the other threads do to the shared state before a step of the network thread. -/
def interfere {α : Type} (env : Env α) (sh : SharedState α) : SharedState α :=
  let sh1 :=
    match env.audio with
    | some call =>
        (audioCallback call.outputBuffer call.inputBuffer call.nFrames sh call.processed).state
    | none => sh
  if env.stop then { sh1 with running := false } else sh1

/-- The network thread run for `fuel` steps against the outside world `envs`: the trace of its
actions and the state reached. -/
def runPump {α : Type} (envs : Nat → Env α) :
    Nat → Nat → PumpState α → List Action × PumpState α
  | 0, _, s => ([], s)
  | fuel + 1, i, s =>
      let s0 := { s with shared := interfere (envs i) s.shared }
      let stepped := pumpStep (envs i) s0
      let rest := runPump envs fuel (i + 1) stepped.1
      (stepped.2.toList ++ rest.1, rest.2)

/-- The state in which `networkThreadFunc(state)` starts; the two local blocks are
uninitialised in the code, so their contents are arbitrary. -/
def pumpStart {α : Type} (shared : SharedState α) (inBlock outBlock : List α) : PumpState α :=
  { loc := .outerCheck, shared := shared, inBlock := inBlock, outBlock := outBlock,
    sockOpen := false }

/-- The trace of the first `fuel` steps of `networkThreadFunc(state)`. -/
def networkThreadFunc {α : Type} (envs : Nat → Env α) (fuel : Nat) (shared : SharedState α)
    (inBlock outBlock : List α) : List Action :=
  (runPump envs fuel 0 (pumpStart shared inBlock outBlock)).1

/-- The state of the network thread after the first `n` steps of `networkThreadFunc(state)`. -/
def pumpStateAt {α : Type} (envs : Nat → Env α) (n : Nat) (shared : SharedState α)
    (inBlock outBlock : List α) : PumpState α :=
  (runPump envs n 0 (pumpStart shared inBlock outBlock)).2

/-- The value of `running` that step number `n` of the network thread reads. -/
def runningAt {α : Type} (envs : Nat → Env α) (n : Nat) (shared : SharedState α)
    (inBlock outBlock : List α) : Bool :=
  (interfere (envs n) (pumpStateAt envs n shared inBlock outBlock).shared).running

/-- The relation between an action of the trace and the action right after it:
* a failed `sendAll` or `recvAll` is followed by the close of the connection (line 192);
* that close is followed by the next `::socket` call, with no delay;
* a failed `::connect` is followed by the close of the socket (line 142) and that close by the
  retry delay; a failed `::socket` is followed by the retry delay;
* the retry delay is followed by the next `::socket` call. -/
def Follows : Action → Action → Prop
  | .send false, b => b = .close .disconnect
  | .receive false, b => b = .close .disconnect
  | .send true, b => b = .receive true ∨ b = .receive false
  | .receive true, b =>
      b = .sleepPoll ∨ b = .send true ∨ b = .send false ∨ b = .close .disconnect
  | .sleepPoll, b =>
      b = .sleepPoll ∨ b = .send true ∨ b = .send false ∨ b = .close .disconnect
  | .close .disconnect, b => b = .socket true ∨ b = .socket false
  | .close .connectFailed, b => b = .sleepRetry
  | .close .inetFailed, _ => False
  | .connect false, b => b = .close .connectFailed
  | .connect true, b =>
      b = .sleepPoll ∨ b = .send true ∨ b = .send false ∨ b = .close .disconnect
  | .socket false, b => b = .sleepRetry
  | .socket true, b => b = .connect true ∨ b = .connect false ∨ b = .close .inetFailed
  | .sleepRetry, b => b = .socket true ∨ b = .socket false

/-- The actions that can be the next one emitted when control is at a location. -/
def NextAt : Loc → Action → Prop
  | .outerCheck, a => a = .socket true ∨ a = .socket false
  | .connCheck, a => a = .socket true ∨ a = .socket false
  | .connSocket, a => a = .socket true ∨ a = .socket false
  | .connSocketSleep, a => a = .sleepRetry
  | .connInet, a => a = .connect true ∨ a = .connect false ∨ a = .close .inetFailed
  | .connInetClose, a => a = .close .inetFailed
  | .connConnect, a => a = .connect true ∨ a = .connect false
  | .connFailClose, a => a = .close .connectFailed
  | .connFailSleep, a => a = .sleepRetry
  | .innerCheck, a =>
      a = .sleepPoll ∨ a = .send true ∨ a = .send false ∨ a = .close .disconnect
  | .innerPop, a => a = .sleepPoll ∨ a = .send true ∨ a = .send false
  | .innerPollSleep, a => a = .sleepPoll
  | .innerSend, a => a = .send true ∨ a = .send false
  | .innerRecv, a => a = .receive true ∨ a = .receive false
  | .innerPush, a =>
      a = .sleepPoll ∨ a = .send true ∨ a = .send false ∨ a = .close .disconnect
  | .disconnect, a => a = .close .disconnect
  | .exited, _ => False

/-- How the network pump reconnects, for the run of `networkThreadFunc(state)` against the
outside world `envs`. Here the trace after `n` steps is `networkThreadFunc envs n ...` and the
state after `n` steps is `pumpStateAt envs n ...`.
* `chain`, `head`: every trace is a chain under `Follows` and starts with a `::socket` call.
* `send_fail_closes`, `recv_fail_closes`: when the thread is at `sendAll` (at `recvAll`) and the
  call fails, the next two steps emit the failed call and then the close of the connection
  (line 192), and control is back at the test of the outer loop with the socket closed.
* `reconnect_at_once`: from the test of the outer loop, with `running` read as true by the two
  loop tests, the third step is the `::socket` call of the next attempt and nothing, so no
  delay, is emitted before it.
* `failed_round_trip_reconnects`: the two together, from the failed `sendAll` or `recvAll` to
  the `::socket` call of the next attempt, five steps on.
* `connect_follows`: after a valid socket and a good `inet_pton`, the next action is the
  `::connect` call.
* `stops_when_not_running`: from the test of the outer loop with `running` read as false the
  thread exits and emits nothing more.
* `socket_fail_delays`, `connect_fail_delays`: a failed `::socket` is followed by the retry
  delay, a failed `::connect` by the close of the socket (line 142) and the retry delay, and
  control is back at the loop test of `connectToServer`.
* `retry_after_delay`: from that loop test, with `running` read as true, the next step is the
  `::socket` call of the next attempt. -/
structure PumpReconnect {α : Type} (envs : Nat → Env α) (shared : SharedState α)
    (inBlock outBlock : List α) : Prop where
  chain : ∀ fuel, List.Chain' Follows (networkThreadFunc envs fuel shared inBlock outBlock)
  head : ∀ fuel a, (networkThreadFunc envs fuel shared inBlock outBlock).head? = some a →
    a = .socket true ∨ a = .socket false
  send_fail_closes : ∀ n, (pumpStateAt envs n shared inBlock outBlock).loc = .innerSend →
    (Client.sendAll (envs n).sendCounts BLOCK_BYTES).ok = false →
      networkThreadFunc envs (n + 2) shared inBlock outBlock =
          networkThreadFunc envs n shared inBlock outBlock ++
            [.send false, .close .disconnect] ∧
        (pumpStateAt envs (n + 2) shared inBlock outBlock).loc = .outerCheck ∧
        (pumpStateAt envs (n + 2) shared inBlock outBlock).sockOpen = false
  recv_fail_closes : ∀ n, (pumpStateAt envs n shared inBlock outBlock).loc = .innerRecv →
    (Client.recvAll (envs n).recvCounts BLOCK_BYTES).ok = false →
      networkThreadFunc envs (n + 2) shared inBlock outBlock =
          networkThreadFunc envs n shared inBlock outBlock ++
            [.receive false, .close .disconnect] ∧
        (pumpStateAt envs (n + 2) shared inBlock outBlock).loc = .outerCheck ∧
        (pumpStateAt envs (n + 2) shared inBlock outBlock).sockOpen = false
  reconnect_at_once : ∀ n, (pumpStateAt envs n shared inBlock outBlock).loc = .outerCheck →
    runningAt envs n shared inBlock outBlock = true →
    runningAt envs (n + 1) shared inBlock outBlock = true →
      networkThreadFunc envs (n + 3) shared inBlock outBlock =
          networkThreadFunc envs n shared inBlock outBlock ++
            [.socket (envs (n + 2)).socketOk] ∧
        (pumpStateAt envs (n + 3) shared inBlock outBlock).loc =
          (if (envs (n + 2)).socketOk then Loc.connInet else Loc.connSocketSleep)
  failed_round_trip_reconnects : ∀ n,
    ((pumpStateAt envs n shared inBlock outBlock).loc = .innerSend ∧
        (Client.sendAll (envs n).sendCounts BLOCK_BYTES).ok = false) ∨
      ((pumpStateAt envs n shared inBlock outBlock).loc = .innerRecv ∧
        (Client.recvAll (envs n).recvCounts BLOCK_BYTES).ok = false) →
    runningAt envs (n + 2) shared inBlock outBlock = true →
    runningAt envs (n + 3) shared inBlock outBlock = true →
      networkThreadFunc envs (n + 5) shared inBlock outBlock =
        networkThreadFunc envs n shared inBlock outBlock ++
          [if (pumpStateAt envs n shared inBlock outBlock).loc = .innerSend then .send false
            else .receive false,
            .close .disconnect, .socket (envs (n + 4)).socketOk]
  connect_follows : ∀ n, (pumpStateAt envs n shared inBlock outBlock).loc = .connInet →
    (envs n).inetOk = true →
      networkThreadFunc envs (n + 2) shared inBlock outBlock =
        networkThreadFunc envs n shared inBlock outBlock ++
          [.connect (envs (n + 1)).connectOk]
  stops_when_not_running : ∀ n,
    (pumpStateAt envs n shared inBlock outBlock).loc = .outerCheck →
    runningAt envs n shared inBlock outBlock = false →
      ∀ k, networkThreadFunc envs (n + k) shared inBlock outBlock =
        networkThreadFunc envs n shared inBlock outBlock
  socket_fail_delays : ∀ n, (pumpStateAt envs n shared inBlock outBlock).loc = .connSocket →
    (envs n).socketOk = false →
      networkThreadFunc envs (n + 2) shared inBlock outBlock =
          networkThreadFunc envs n shared inBlock outBlock ++
            [.socket false, .sleepRetry] ∧
        (pumpStateAt envs (n + 2) shared inBlock outBlock).loc = .connCheck
  connect_fail_delays : ∀ n, (pumpStateAt envs n shared inBlock outBlock).loc = .connConnect →
    (envs n).connectOk = false →
      networkThreadFunc envs (n + 3) shared inBlock outBlock =
          networkThreadFunc envs n shared inBlock outBlock ++
            [.connect false, .close .connectFailed, .sleepRetry] ∧
        (pumpStateAt envs (n + 3) shared inBlock outBlock).loc = .connCheck ∧
        (pumpStateAt envs (n + 3) shared inBlock outBlock).sockOpen = false
  retry_after_delay : ∀ n, (pumpStateAt envs n shared inBlock outBlock).loc = .connCheck →
    runningAt envs n shared inBlock outBlock = true →
      networkThreadFunc envs (n + 2) shared inBlock outBlock =
        networkThreadFunc envs n shared inBlock outBlock ++
          [.socket (envs (n + 1)).socketOk]

/-- The property that a close caused by an I/O failure is never followed by a connect attempt
without a retry delay in between, checked along a trace. The flag `failed` says that the action
just before was a failed `sendAll` or `recvAll`; the flag `pending` says that a close caused by
such a failure has happened and no retry delay since. -/
def delayedReconnect : Bool → Bool → List Action → Bool
  | _, _, [] => true
  | _, pending, .send ok :: rest => delayedReconnect (!ok) pending rest
  | _, pending, .receive ok :: rest => delayedReconnect (!ok) pending rest
  | failed, pending, .close _ :: rest => delayedReconnect false (pending || failed) rest
  | _, _, .sleepRetry :: rest => delayedReconnect false false rest
  | _, pending, .connect _ :: rest => !pending && delayedReconnect false false rest
  | _, pending, .socket _ :: rest => delayedReconnect false pending rest
  | _, pending, .sleepPoll :: rest => delayedReconnect false pending rest

/-! ## The per-block transform of the server (`dsp_server.cpp` lines 128-173)

The transform is modelled over exact real arithmetic: a `float` is a real number, a
`fftwf_complex` a complex number, and the literal `0.05f` the real number 0.05. The working
buffers `timeDomain` and `freqDomain` are functions on the `BLOCK_SIZE` indices. The server
file declares its own `BLOCK_SIZE = 1024`, the same value as the client. -/

namespace Server

/-- The sign `FFTW_FORWARD` of the plan `planFwd`. -/
def FFTW_FORWARD : ℤ := -1

/-- The sign `FFTW_BACKWARD` of the plan `planInv`. -/
def FFTW_BACKWARD : ℤ := 1

/-- Modelled from the spec: the library call `fftwf_execute` on a plan made by
`fftwf_plan_dft_1d(n, in, out, sign, ...)` is not part of the repository. The spec calls it the
forward discrete Fourier transform (bin 0 the DC bin) and its inverse, the pair unnormalised:
output `k` is the sum over `j` of `in[j] * exp(sign * 2 * pi * i * j * k / n)`. -/
noncomputable def fftwf_execute (sign : ℤ) {n : ℕ} (input : Fin n → ℂ) : Fin n → ℂ :=
  fun k => ∑ j : Fin n,
    input j * Complex.exp ((sign : ℂ) *
      (2 * Real.pi * Complex.I * (((j : ℕ) * (k : ℕ) : ℕ) : ℂ) / (n : ℂ)))

/-- Step 1 (lines 131-135): `timeDomain[i][0] = inBlock[i]; timeDomain[i][1] = 0.0f`. -/
noncomputable def loadInput (inBlock : Fin BLOCK_SIZE → ℝ) : Fin BLOCK_SIZE → ℂ :=
  fun i => ⟨inBlock i, 0⟩

/-- Step 3 (lines 145-156), the robot effect: every bin becomes `(mag, 0)` with
`mag = sqrtf(real * real + imag * imag)`. -/
noncomputable def robotEffect (freqDomain : Fin BLOCK_SIZE → ℂ) : Fin BLOCK_SIZE → ℂ :=
  fun k =>
    let real := (freqDomain k).re
    let imag := (freqDomain k).im
    let mag := Real.sqrt (real * real + imag * imag)
    ⟨mag, 0⟩

/-- The low-pass loop (lines 159-162): `freqDomain[k][0] *= 0.05f` for `k` from
`BLOCK_SIZE / 2` up to `BLOCK_SIZE - 1`. -/
noncomputable def lowPass (freqDomain : Fin BLOCK_SIZE → ℂ) : Fin BLOCK_SIZE → ℂ :=
  fun k =>
    if BLOCK_SIZE / 2 ≤ (k : ℕ) then ⟨(freqDomain k).re * 0.05, (freqDomain k).im⟩
    else freqDomain k

/-- Step 5 (lines 172-173): `outBlock[i] = timeDomain[i][0] / float(BLOCK_SIZE)`. -/
noncomputable def normalize (timeDomain : Fin BLOCK_SIZE → ℂ) : Fin BLOCK_SIZE → ℝ :=
  fun i => (timeDomain i).re / (BLOCK_SIZE : ℝ)

/-- The contents of `freqDomain` after the robot effect and the low-pass loop. -/
noncomputable def effectBins (inBlock : Fin BLOCK_SIZE → ℝ) : Fin BLOCK_SIZE → ℂ :=
  lowPass (robotEffect (fftwf_execute FFTW_FORWARD (loadInput inBlock)))

/-- The per-block transform of the server loop, lines 131-173: from `inBlock` to `outBlock`. -/
noncomputable def processBlock (inBlock : Fin BLOCK_SIZE → ℝ) : Fin BLOCK_SIZE → ℝ :=
  normalize (fftwf_execute FFTW_BACKWARD (effectBins inBlock))

/-- The same pipeline with the low-pass loop of lines 159-162 removed. -/
noncomputable def processBlockNoLowPass (inBlock : Fin BLOCK_SIZE → ℝ) : Fin BLOCK_SIZE → ℝ :=
  normalize (fftwf_execute FFTW_BACKWARD
    (robotEffect (fftwf_execute FFTW_FORWARD (loadInput inBlock))))

/-- The Nyquist block `x[n] = (-1)^n`. -/
noncomputable def nyquistBlock : Fin BLOCK_SIZE → ℝ := fun i => (-1) ^ (i : ℕ)

end Server

/-! ## Example states -/

/-- A transport that delivers 4000 bytes, then 96 bytes, then nothing. -/
def exampleRecv : Nat → Int
  | 0 => 4000
  | 1 => 96
  | _ => 0

/-- A transport that delivers nothing: every call returns 0. -/
def silentRecv : Nat → Int := fun _ => 0

/-- A ring of eight slots that is full: seven blocks stored, write index 7 and read index 0. -/
def fullRing : SpscRingBuffer Nat 8 :=
  { buffer_ := List.replicate 8 (List.replicate BLOCK_SIZE 0), writeIndex_ := 7, readIndex_ := 0 }

/-- A ring of eight slots that is empty after three blocks went through it. -/
def drainedRing : SpscRingBuffer Nat 8 :=
  { buffer_ := List.replicate 8 (List.replicate BLOCK_SIZE 0), writeIndex_ := 3, readIndex_ := 3 }

/-- A block of `BLOCK_SIZE` samples, all zero. -/
def exampleBlock : List Nat := List.replicate BLOCK_SIZE 0

/-- A shared state whose input ring is empty and whose output ring is full. -/
def exampleShared : SharedState Nat :=
  { running := true, inputRing := drainedRing, outputRing := fullRing }

/-- A captured block of `BLOCK_SIZE` samples, all five. -/
def exampleInput : List Nat := List.replicate BLOCK_SIZE 5

/-- A shared state whose input ring is full and whose output ring is empty. -/
def busyShared : SharedState Nat :=
  { running := true, inputRing := fullRing, outputRing := drainedRing }

/-- An outside world in which the server is reachable and every `::send` returns 0. -/
def failingSendEnv : Env Nat :=
  { stop := false, audio := none, socketOk := true, inetOk := true, connectOk := true,
    sendCounts := silentRecv, recvCounts := exampleRecv, received := exampleBlock }

/-- The network thread about to push a received block, with the output ring full. -/
def pushingPump : PumpState Nat :=
  { loc := .innerPush, shared := exampleShared, inBlock := exampleBlock,
    outBlock := exampleInput, sockOpen := true }

/-! ## Helper lemmas: index arithmetic -/

theorem mod_of_lt_two_mul {a n : Nat} (h : a < 2 * n) :
    a % n = if a < n then a else a - n := by
  split_ifs with h1
  · exact Nat.mod_eq_of_lt h1
  · rw [Nat.mod_eq_sub_mod (by omega), Nat.mod_eq_of_lt (by omega)]

theorem memcpy_block {α : Type} (dst src : List α) (h : src.length = BLOCK_SIZE) :
    (memcpy dst src BLOCK_SIZE).take BLOCK_SIZE = src := by
  unfold memcpy
  rw [List.take_append_of_le_length (by simp [h])]
  rw [List.take_take, Nat.min_self, ← h, List.take_length]

theorem memcpy_onto_block {α : Type} (dst src : List α) (h : dst.length = BLOCK_SIZE) :
    memcpy dst src BLOCK_SIZE = src.take BLOCK_SIZE := by
  unfold memcpy
  rw [← h, List.drop_length, List.append_nil]

namespace SpscRingBuffer

variable {α : Type} {NumBlocks : Nat}

theorem push_fst (r : SpscRingBuffer α NumBlocks) (data : List α) :
    (r.push data).1 = !decide ((r.writeIndex_ + 1) % NumBlocks = r.readIndex_) := by
  unfold push
  by_cases h : (r.writeIndex_ + 1) % NumBlocks = r.readIndex_ <;> simp [h]

theorem pop_fst (r : SpscRingBuffer α NumBlocks) (out : List α) :
    (r.pop out).1 = !decide (r.readIndex_ = r.writeIndex_) := by
  unfold pop
  by_cases h : r.readIndex_ = r.writeIndex_ <;> simp [h]

theorem push_wf {r : SpscRingBuffer α NumBlocks} (h : r.WF) (data : List α) :
    (r.push data).2.WF := by
  have hn : 0 < NumBlocks := Nat.lt_of_le_of_lt (Nat.zero_le _) h.write_lt
  unfold push
  by_cases hf : (r.writeIndex_ + 1) % NumBlocks = r.readIndex_
  · simpa [hf] using h
  · simp only [hf, if_false]
    exact ⟨by simpa using h.slots, Nat.mod_lt _ hn, h.read_lt⟩

theorem pop_wf {r : SpscRingBuffer α NumBlocks} (h : r.WF) (out : List α) :
    (r.pop out).2.2.WF := by
  have hn : 0 < NumBlocks := Nat.lt_of_le_of_lt (Nat.zero_le _) h.write_lt
  unfold pop
  by_cases he : r.readIndex_ = r.writeIndex_
  · simpa [he] using h
  · simp only [he, if_false]
    exact ⟨h.slots, h.write_lt, Nat.mod_lt _ hn⟩

theorem ring_arith_push {w rd n : Nat} (hw : w < n) (hr : rd < n) (hf : (w + 1) % n ≠ rd) :
    ((w + 1) % n + n - rd) % n = (w + n - rd) % n + 1 ∧
      (rd + (w + n - rd) % n) % n = w ∧
      ∀ i, i < (w + n - rd) % n → (rd + i) % n ≠ w := by
  have h1 := mod_of_lt_two_mul (a := w + 1) (n := n) (by omega)
  have h2 := mod_of_lt_two_mul (a := w + n - rd) (n := n) (by omega)
  have h3 : (w + 1) % n < n := Nat.mod_lt _ (by omega)
  have h4 := mod_of_lt_two_mul (a := (w + 1) % n + n - rd) (n := n) (by omega)
  have h5 : (w + n - rd) % n < n := Nat.mod_lt _ (by omega)
  have h6 := mod_of_lt_two_mul (a := rd + (w + n - rd) % n) (n := n) (by omega)
  refine ⟨?_, ?_, ?_⟩
  · split_ifs at h1 h2 h4 <;> omega
  · split_ifs at h1 h2 h6 <;> omega
  · intro i hi
    have h7 := mod_of_lt_two_mul (a := rd + i) (n := n) (by omega)
    split_ifs at h1 h2 h7 <;> omega

theorem ring_arith_pop {w rd n : Nat} (hw : w < n) (hr : rd < n) (he : rd ≠ w) :
    (w + n - rd) % n = (w + n - (rd + 1) % n) % n + 1 := by
  have h1 := mod_of_lt_two_mul (a := rd + 1) (n := n) (by omega)
  have h2 := mod_of_lt_two_mul (a := w + n - rd) (n := n) (by omega)
  have h3 : (rd + 1) % n < n := Nat.mod_lt _ (by omega)
  have h4 := mod_of_lt_two_mul (a := w + n - (rd + 1) % n) (n := n) (by omega)
  split_ifs at h1 h2 h4 <;> omega

theorem getD_set_ne {β : Type} (l : List β) {i j : Nat} (a d : β) (h : i ≠ j) :
    (l.set i a).getD j d = l.getD j d := by
  simp [List.getD_eq_getElem?_getD, List.getElem?_set, h]

theorem getD_set_self {β : Type} (l : List β) {i : Nat} (a d : β) (h : i < l.length) :
    (l.set i a).getD i d = a := by
  simp [List.getD_eq_getElem?_getD, List.getElem?_set, h]

/-- A successful push appends the pushed block to the stored blocks. -/
theorem contents_push {r : SpscRingBuffer α NumBlocks} (h : r.WF) {data : List α}
    (hd : data.length = BLOCK_SIZE) (hok : (r.push data).1 = true) :
    (r.push data).2.contents = r.contents ++ [data] := by
  have hf : (r.writeIndex_ + 1) % NumBlocks ≠ r.readIndex_ := by
    rw [push_fst] at hok
    simpa using hok
  obtain ⟨hc, hlast, hold⟩ := ring_arith_push h.write_lt h.read_lt hf
  unfold push
  simp only [hf, if_false]
  unfold contents count
  simp only []
  rw [hc, List.range_succ, List.map_append, List.map_singleton]
  congr 1
  · apply List.map_congr_left
    intro i hi
    rw [getD_set_ne _ _ _ (Ne.symm (hold i (List.mem_range.mp hi)))]
  · rw [hlast, getD_set_self _ _ _ (by rw [h.slots]; exact h.write_lt), memcpy_block _ _ hd]

/-- A successful pop removes the oldest stored block and hands it to the caller. -/
theorem contents_pop {r : SpscRingBuffer α NumBlocks} (h : r.WF) {out : List α}
    (ho : out.length = BLOCK_SIZE) (hok : (r.pop out).1 = true) :
    r.contents = (r.pop out).2.1 :: (r.pop out).2.2.contents := by
  have he : r.readIndex_ ≠ r.writeIndex_ := by
    rw [pop_fst] at hok
    simpa using hok
  have hc := ring_arith_pop h.write_lt h.read_lt he
  unfold pop
  simp only [he, if_false]
  unfold contents count
  simp only []
  rw [hc, List.range_succ_eq_map, List.map_cons, List.map_map]
  congr 1
  · rw [Nat.add_zero, Nat.mod_eq_of_lt h.read_lt, memcpy_onto_block _ _ ho]
  · apply List.map_congr_left
    intro i _
    simp only [Function.comp, Nat.mod_add_mod]
    rw [Nat.add_assoc, Nat.add_comm 1 i]

/-- A failed push leaves the ring as it was. -/
theorem push_snd_of_fail {r : SpscRingBuffer α NumBlocks} {data : List α}
    (hok : (r.push data).1 = false) : (r.push data).2 = r := by
  have hf : (r.writeIndex_ + 1) % NumBlocks = r.readIndex_ := by
    rw [push_fst] at hok
    simpa using hok
  unfold push
  simp [hf]

/-- A failed pop leaves the ring and the buffer of the caller as they were. -/
theorem pop_snd_of_fail {r : SpscRingBuffer α NumBlocks} {out : List α}
    (hok : (r.pop out).1 = false) : (r.pop out).2 = (out, r) := by
  have he : r.readIndex_ = r.writeIndex_ := by
    rw [pop_fst] at hok
    simpa using hok
  unfold pop
  simp [he]

theorem construct_wf {n : Nat} (hn : 1 ≤ n) {slots : List (List α)} (hs : slots.length = n) :
    (construct n slots).WF :=
  ⟨hs, hn, hn⟩

theorem construct_contents (n : Nat) (slots : List (List α)) :
    (construct n slots).contents = [] := by
  simp [contents, count, construct]

end SpscRingBuffer

/-! ## Runs of ring operations -/

theorem runOps_append {α : Type} {n : Nat} (a b : List (RingOp α)) (r : SpscRingBuffer α n) :
    runOps (a ++ b) r = ((runOps a r).1 ++ (runOps b (runOps a r).2).1,
      (runOps b (runOps a r).2).2) := by
  induction a generalizing r with
  | nil => simp [runOps]
  | cons op ops ih => cases op <;> simp [runOps, ih]

theorem accepted_cons_pushed {α : Type} (ok : Bool) (data : List α) (evs : List (RingEvent α)) :
    accepted (.pushed ok data :: evs) = if ok then data :: accepted evs else accepted evs := by
  cases ok <;> simp [accepted, List.filterMap_cons]

theorem accepted_cons_popped {α : Type} (ok : Bool) (out : List α) (evs : List (RingEvent α)) :
    accepted (.popped ok out :: evs) = accepted evs := by
  simp [accepted, List.filterMap_cons]

theorem delivered_cons_pushed {α : Type} (ok : Bool) (data : List α) (evs : List (RingEvent α)) :
    delivered (.pushed ok data :: evs) = delivered evs := by
  simp [delivered, List.filterMap_cons]

theorem delivered_cons_popped {α : Type} (ok : Bool) (out : List α) (evs : List (RingEvent α)) :
    delivered (.popped ok out :: evs) = if ok then out :: delivered evs else delivered evs := by
  cases ok <;> simp [delivered, List.filterMap_cons]

/-- Along any run, what was stored plus what is accepted is what is delivered plus what stays
stored. -/
theorem runOps_conservation {α : Type} {n : Nat} (ops : List (RingOp α))
    (r : SpscRingBuffer α n) (hr : r.WF) (hops : ∀ op ∈ ops, op.blockSized) :
    r.contents ++ accepted (runOps ops r).1 =
      delivered (runOps ops r).1 ++ (runOps ops r).2.contents := by
  induction ops generalizing r with
  | nil => simp [runOps, accepted, delivered]
  | cons op ops ih =>
    have hrest : ∀ o ∈ ops, o.blockSized := fun o ho => hops o (List.mem_cons_of_mem _ ho)
    have hop : op.blockSized := hops op (List.mem_cons_self _ _)
    cases op with
    | push data =>
      have hd : data.length = BLOCK_SIZE := hop
      have ih1 := ih (r.push data).2 (SpscRingBuffer.push_wf hr data) hrest
      simp only [runOps, accepted_cons_pushed, delivered_cons_pushed]
      cases hok : (r.push data).1
      · rw [SpscRingBuffer.push_snd_of_fail hok] at ih1 ⊢
        simpa using ih1
      · rw [SpscRingBuffer.contents_push hr hd hok] at ih1
        simpa using ih1
    | pop out =>
      have ho : out.length = BLOCK_SIZE := hop
      have ih1 := ih (r.pop out).2.2 (SpscRingBuffer.pop_wf hr out) hrest
      simp only [runOps, accepted_cons_popped, delivered_cons_popped]
      cases hok : (r.pop out).1
      · have hsnd := SpscRingBuffer.pop_snd_of_fail hok
        rw [hsnd] at ih1 ⊢
        simpa using ih1
      · rw [SpscRingBuffer.contents_pop hr ho hok]
        simp only [if_true, List.cons_append]
        rw [ih1]

/-- Pushes into a ring whose read index is 0 succeed as long as the write index stays below
`n - 1`. -/
theorem runOps_pushes {α : Type} {n : Nat} (datas : List (List α)) (r : SpscRingBuffer α n)
    (hrd : r.readIndex_ = 0) (hw : r.writeIndex_ + datas.length + 1 ≤ n) :
    ((runOps (datas.map RingOp.push) r).1.map RingEvent.ok = List.replicate datas.length true) ∧
      (runOps (datas.map RingOp.push) r).2.readIndex_ = 0 ∧
      (runOps (datas.map RingOp.push) r).2.writeIndex_ = r.writeIndex_ + datas.length := by
  induction datas generalizing r with
  | nil => simp [runOps, hrd]
  | cons d ds ih =>
    simp only [List.length_cons] at hw
    have hmod : (r.writeIndex_ + 1) % n = r.writeIndex_ + 1 := Nat.mod_eq_of_lt (by omega)
    have hne : (r.writeIndex_ + 1) % n ≠ r.readIndex_ := by rw [hmod, hrd]; omega
    have hfst : (r.push d).1 = true := by rw [SpscRingBuffer.push_fst]; simpa using hne
    have hrd1 : (r.push d).2.readIndex_ = 0 := by
      unfold SpscRingBuffer.push; simp only [hne, if_false]; exact hrd
    have hw1 : (r.push d).2.writeIndex_ = r.writeIndex_ + 1 := by
      unfold SpscRingBuffer.push; simp only [hne, if_false]; exact hmod
    obtain ⟨h1, h2, h3⟩ := ih (r.push d).2 hrd1 (by rw [hw1]; omega)
    simp only [List.map_cons, runOps, RingEvent.ok, List.length_cons, List.replicate_succ]
    refine ⟨by rw [h1, hfst], h2, by rw [h3, hw1]; omega⟩

/-- Pops from a ring whose write index is `n - 1` succeed as long as the read index stays below
it. -/
theorem runOps_pops {α : Type} {n : Nat} (outs : List (List α)) (r : SpscRingBuffer α n)
    (hw : r.writeIndex_ + 1 = n) (hrd : r.readIndex_ + outs.length + 1 ≤ n) :
    ((runOps (outs.map RingOp.pop) r).1.map RingEvent.ok = List.replicate outs.length true) ∧
      (runOps (outs.map RingOp.pop) r).2.writeIndex_ = r.writeIndex_ ∧
      (runOps (outs.map RingOp.pop) r).2.readIndex_ = r.readIndex_ + outs.length := by
  induction outs generalizing r with
  | nil => simp [runOps]
  | cons o os ih =>
    simp only [List.length_cons] at hrd
    have hmod : (r.readIndex_ + 1) % n = r.readIndex_ + 1 := Nat.mod_eq_of_lt (by omega)
    have hne : r.readIndex_ ≠ r.writeIndex_ := by omega
    have hfst : (r.pop o).1 = true := by rw [SpscRingBuffer.pop_fst]; simpa using hne
    have hw1 : (r.pop o).2.2.writeIndex_ = r.writeIndex_ := by
      unfold SpscRingBuffer.pop; simp only [hne, if_false]
    have hrd1 : (r.pop o).2.2.readIndex_ = r.readIndex_ + 1 := by
      unfold SpscRingBuffer.pop; simp only [hne, if_false]; exact hmod
    obtain ⟨h1, h2, h3⟩ := ih (r.pop o).2.2 (by rw [hw1]; exact hw) (by rw [hrd1]; omega)
    simp only [List.map_cons, runOps, RingEvent.ok, List.length_cons, List.replicate_succ]
    refine ⟨by rw [h1, hfst], by rw [h2, hw1], by rw [h3, hrd1]; omega⟩

/-! ## The ring buffer contract -/

/-- C1. FIFO: for every `NumBlocks >= 1` and every finite sequence of `push` and `pop` calls
on a freshly constructed ring (each handed a buffer of one block), the blocks delivered by the
pops that returned true are, in order, a prefix of the blocks handed to the pushes that
returned true. -/
theorem spsc_fifo_prefix {α : Type} (NumBlocks : Nat) (hN : 1 ≤ NumBlocks)
    (slots : List (List α)) (hslots : slots.length = NumBlocks) (ops : List (RingOp α))
    (hops : ∀ op ∈ ops, op.blockSized) :
    delivered (runOps ops (SpscRingBuffer.construct NumBlocks slots)).1 <+:
      accepted (runOps ops (SpscRingBuffer.construct NumBlocks slots)).1 := by
  have h := runOps_conservation ops (SpscRingBuffer.construct NumBlocks slots)
    (SpscRingBuffer.construct_wf hN hslots) hops
  rw [SpscRingBuffer.construct_contents, List.nil_append] at h
  exact ⟨_, h.symm⟩

/-- A run on a fresh ring of two slots: a block of sevens is pushed, a block of nines is
pushed and refused, one pop delivers the sevens, a second pop finds the ring empty. -/
theorem spsc_fifo_prefix_witness :
    delivered (runOps
        [RingOp.push (List.replicate BLOCK_SIZE 7), RingOp.push (List.replicate BLOCK_SIZE 9),
          RingOp.pop (List.replicate BLOCK_SIZE 0), RingOp.pop (List.replicate BLOCK_SIZE 0)]
        (SpscRingBuffer.construct 2 [[], [1, 2, 3]])).1 <+:
      accepted (runOps
        [RingOp.push (List.replicate BLOCK_SIZE 7), RingOp.push (List.replicate BLOCK_SIZE 9),
          RingOp.pop (List.replicate BLOCK_SIZE 0), RingOp.pop (List.replicate BLOCK_SIZE 0)]
        (SpscRingBuffer.construct 2 [[], [1, 2, 3]])).1 :=
  spsc_fifo_prefix 2 (by decide) [[], [1, 2, 3]] rfl _
    (by
      intro op hop
      simp only [List.mem_cons, List.mem_singleton, List.not_mem_nil, or_false] at hop
      rcases hop with h | h | h | h <;> subst h <;> simp [RingOp.blockSized])

/-- C2. Full/empty disambiguation: for every `NumBlocks >= 2`, on a freshly constructed ring and
with no pops, the first `NumBlocks - 1` pushes all return true and the next push returns false;
the `NumBlocks - 1` pops that follow all return true and one further pop returns false. -/
theorem spsc_full_empty {α : Type} (NumBlocks : Nat) (hN : 2 ≤ NumBlocks)
    (slots : List (List α)) (datas : List (List α)) (hdatas : datas.length = NumBlocks - 1)
    (extra : List α) (outs : List (List α)) (houts : outs.length = NumBlocks - 1)
    (lastOut : List α) :
    (runOps (datas.map RingOp.push ++ [RingOp.push extra] ++ outs.map RingOp.pop ++
        [RingOp.pop lastOut]) (SpscRingBuffer.construct NumBlocks slots)).1.map RingEvent.ok =
      List.replicate (NumBlocks - 1) true ++ [false] ++ List.replicate (NumBlocks - 1) true ++
        [false] := by
  obtain ⟨p1, p2, p3⟩ := runOps_pushes datas (SpscRingBuffer.construct NumBlocks slots) rfl
    (by simp only [SpscRingBuffer.construct]; omega)
  generalize hr1 : (runOps (datas.map RingOp.push) (SpscRingBuffer.construct NumBlocks slots)).2
    = r1 at p2 p3
  have hw1 : r1.writeIndex_ = NumBlocks - 1 := by
    rw [p3, hdatas]; simp [SpscRingBuffer.construct]
  have hfull : (r1.writeIndex_ + 1) % NumBlocks = r1.readIndex_ := by
    rw [hw1, p2, Nat.sub_add_cancel (by omega), Nat.mod_self]
  have hpush : (r1.push extra).1 = false := by
    rw [SpscRingBuffer.push_fst]; simp [hfull]
  have hr2 : (r1.push extra).2 = r1 := SpscRingBuffer.push_snd_of_fail hpush
  obtain ⟨q1, q2, q3⟩ := runOps_pops outs r1 (by rw [hw1]; omega) (by rw [p2, houts]; omega)
  generalize hr3 : (runOps (outs.map RingOp.pop) r1).2 = r3 at q2 q3
  have hempty : r3.readIndex_ = r3.writeIndex_ := by
    rw [q3, q2, p2, hw1, houts]; omega
  have hpop : (r3.pop lastOut).1 = false := by
    rw [SpscRingBuffer.pop_fst]; simp [hempty]
  simp only [runOps_append, List.map_append, hr1, p1, hdatas]
  simp only [runOps, List.map_cons, List.map_nil, RingEvent.ok, hpush, hr2, q1, houts, hr3, hpop]

/-- The ring `SpscRingBuffer<8>` of `SharedState`: seven pushes succeed, the eighth is refused,
seven pops succeed, the eighth finds the ring empty. -/
theorem spsc_full_empty_witness :
    (runOps ((List.replicate 7 [1, 2]).map RingOp.push ++ [RingOp.push [3]] ++
        (List.replicate 7 []).map RingOp.pop ++ [RingOp.pop []])
        (SpscRingBuffer.construct 8 (List.replicate 8 ([] : List Nat)))).1.map RingEvent.ok =
      List.replicate (8 - 1) true ++ [false] ++ List.replicate (8 - 1) true ++ [false] :=
  spsc_full_empty 8 (by decide) _ (List.replicate 7 [1, 2]) rfl [3] (List.replicate 7 []) rfl []

/-- C3. A failing ring operation is a no-op: for every ring state, when `push` returns false
the indices and every slot are unchanged, and when `pop` returns false the out block of the
caller, the indices and every slot are unchanged. -/
theorem spsc_failure_is_noop {α : Type} {NumBlocks : Nat} (r q : SpscRingBuffer α NumBlocks)
    (data out : List α) :
    ((r.push data).1 = false → (r.push data).2 = r) ∧
      ((q.pop out).1 = false → (q.pop out).2.1 = out ∧ (q.pop out).2.2 = q) := by
  refine ⟨SpscRingBuffer.push_snd_of_fail, fun h => ?_⟩
  rw [SpscRingBuffer.pop_snd_of_fail h]
  exact ⟨rfl, rfl⟩

/-- A full ring of eight slots refuses a push and an empty one refuses a pop, and both calls
change nothing. -/
theorem spsc_failure_is_noop_witness :
    ((fullRing.push [5]).1 = false ∧ (fullRing.push [5]).2 = fullRing) ∧
      ((drainedRing.pop [5]).1 = false ∧ (drainedRing.pop [5]).2.1 = [5] ∧
        (drainedRing.pop [5]).2.2 = drainedRing) :=
  ⟨⟨by decide, (spsc_failure_is_noop fullRing drainedRing [5] [5]).1 (by decide)⟩,
    ⟨by decide, (spsc_failure_is_noop fullRing drainedRing [5] [5]).2 (by decide)⟩⟩

/-! ## The transfer helpers -/

theorem transferLoop_fail (lenArg : Nat → Int) (io : Nat → Int) {bytes total i : Nat}
    (h : total < bytes) (hn : io i ≤ 0) :
    transferLoop lenArg io bytes total i =
      { ok := false, total := total,
        calls := [{ offset := total, len := lenArg (bytes - total), ret := io i }] } := by
  rw [transferLoop, if_pos h]
  simp only [hn, if_true]

theorem memcpy_whole {α : Type} (dst src : List α) (n : Nat) (hs : src.length = n)
    (hd : dst.length = n) : memcpy dst src n = src := by
  unfold memcpy
  rw [← hs, List.take_length, hs, ← hd, List.drop_length, List.append_nil]

theorem fullRing_wf : fullRing.WF :=
  ⟨by simp [fullRing], by decide, by decide⟩

theorem drainedRing_wf : drainedRing.WF :=
  ⟨by simp [drainedRing], by decide, by decide⟩

/-- C5. Bypass: for every `nFrames != BLOCK_SIZE` and every input buffer of `nFrames` samples,
`audioCallback` writes the `nFrames` input samples unchanged to the output buffer, returns 0,
and leaves `inputRing` and `outputRing` (indices and slots) unchanged. -/
theorem audioCallback_bypass {α : Type} (outputBuffer inputBuffer : List α) (nFrames : Nat)
    (state : SharedState α) (processed : List α) (hn : nFrames ≠ BLOCK_SIZE)
    (hin : inputBuffer.length = nFrames) (hout : outputBuffer.length = nFrames) :
    (audioCallback outputBuffer inputBuffer nFrames state processed).outputBuffer = inputBuffer ∧
      (audioCallback outputBuffer inputBuffer nFrames state processed).ret = 0 ∧
      (audioCallback outputBuffer inputBuffer nFrames state processed).state = state := by
  unfold audioCallback
  rw [if_pos hn]
  exact ⟨memcpy_whole _ _ _ hin hout, rfl, rfl⟩

/-- A callback of three frames copies them through and touches neither ring. -/
theorem audioCallback_bypass_witness :
    (audioCallback [0, 0, 0] [4, 5, 6] 3 exampleShared exampleBlock).outputBuffer = [4, 5, 6] ∧
      (audioCallback [0, 0, 0] [4, 5, 6] 3 exampleShared exampleBlock).ret = 0 ∧
      (audioCallback [0, 0, 0] [4, 5, 6] 3 exampleShared exampleBlock).state = exampleShared :=
  audioCallback_bypass [0, 0, 0] [4, 5, 6] 3 exampleShared exampleBlock (by decide) rfl rfl

/-- C6. Dry pass-through on underrun: for every `audioCallback` invocation with
`nFrames == BLOCK_SIZE`, if `outputRing` is empty the output buffer equals the captured input
block, and otherwise the output buffer equals the oldest block stored in `outputRing`, which is
removed from it; in both cases the input block is appended to `inputRing` when `inputRing` is
not full and `inputRing` is left unchanged when it is full, and the callback returns 0. -/
theorem audioCallback_block {α : Type} (outputBuffer inputBuffer : List α)
    (state : SharedState α) (processed : List α)
    (hin : inputBuffer.length = BLOCK_SIZE) (hout : outputBuffer.length = BLOCK_SIZE)
    (hproc : processed.length = BLOCK_SIZE)
    (hinRing : state.inputRing.WF) (houtRing : state.outputRing.WF) :
    (audioCallback outputBuffer inputBuffer BLOCK_SIZE state processed).ret = 0 ∧
      (state.outputRing.isEmpty →
        (audioCallback outputBuffer inputBuffer BLOCK_SIZE state processed).outputBuffer
            = inputBuffer ∧
          (audioCallback outputBuffer inputBuffer BLOCK_SIZE state processed).state.outputRing
            = state.outputRing) ∧
      (¬ state.outputRing.isEmpty →
        ∃ oldest rest, state.outputRing.contents = oldest :: rest ∧
          (audioCallback outputBuffer inputBuffer BLOCK_SIZE state processed).outputBuffer
            = oldest ∧
          (audioCallback outputBuffer inputBuffer BLOCK_SIZE state
            processed).state.outputRing.contents = rest) ∧
      (¬ state.inputRing.isFull →
        (audioCallback outputBuffer inputBuffer BLOCK_SIZE state
          processed).state.inputRing.contents = state.inputRing.contents ++ [inputBuffer]) ∧
      (state.inputRing.isFull →
        (audioCallback outputBuffer inputBuffer BLOCK_SIZE state processed).state.inputRing
          = state.inputRing) := by
  have hret : (audioCallback outputBuffer inputBuffer BLOCK_SIZE state processed).ret = 0 := by
    unfold audioCallback
    simp only [ne_eq, not_true_eq_false, if_false]
    split <;> rfl
  have hstate : (audioCallback outputBuffer inputBuffer BLOCK_SIZE state processed).state =
      { state with inputRing := (state.inputRing.push inputBuffer).2,
                   outputRing := (state.outputRing.pop processed).2.2 } := by
    unfold audioCallback
    simp only [ne_eq, not_true_eq_false, if_false]
    split <;> rfl
  have hbuf : (audioCallback outputBuffer inputBuffer BLOCK_SIZE state processed).outputBuffer =
      if (state.outputRing.pop processed).1 then
        memcpy outputBuffer (state.outputRing.pop processed).2.1 BLOCK_SIZE
      else memcpy outputBuffer inputBuffer BLOCK_SIZE := by
    unfold audioCallback
    simp only [ne_eq, not_true_eq_false, if_false]
    split <;> rfl
  refine ⟨hret, ?_, ?_, ?_, ?_⟩
  · intro he
    have hfail : (state.outputRing.pop processed).1 = false := by
      rw [SpscRingBuffer.pop_fst]
      simpa [SpscRingBuffer.isEmpty] using he
    refine ⟨?_, ?_⟩
    · rw [hbuf, hfail]
      exact memcpy_whole _ _ _ hin hout
    · rw [hstate, SpscRingBuffer.pop_snd_of_fail hfail]
  · intro he
    have hok : (state.outputRing.pop processed).1 = true := by
      rw [SpscRingBuffer.pop_fst]
      simpa [SpscRingBuffer.isEmpty] using he
    have hc := SpscRingBuffer.contents_pop houtRing hproc hok
    refine ⟨_, _, hc, ?_, ?_⟩
    · rw [hbuf, hok, if_pos rfl, memcpy_onto_block _ _ hout]
      have hhead : (state.outputRing.pop processed).2.1 ∈ state.outputRing.contents := by
        rw [hc]
        exact List.mem_cons_self _ _
      unfold SpscRingBuffer.contents at hhead
      obtain ⟨i, _, hi⟩ := List.mem_map.mp hhead
      rw [← hi, List.take_take, Nat.min_self]
    · rw [hstate]
  · intro hf
    have hok : (state.inputRing.push inputBuffer).1 = true := by
      rw [SpscRingBuffer.push_fst]
      simpa [SpscRingBuffer.isFull] using hf
    rw [hstate]
    exact SpscRingBuffer.contents_push hinRing hin hok
  · intro hf
    have hfail : (state.inputRing.push inputBuffer).1 = false := by
      rw [SpscRingBuffer.push_fst]
      simpa [SpscRingBuffer.isFull] using hf
    rw [hstate]
    exact SpscRingBuffer.push_snd_of_fail hfail

/-- A callback of one block with an empty input ring and a full output ring. -/
theorem audioCallback_block_witness :
    (exampleInput.length = BLOCK_SIZE ∧ exampleBlock.length = BLOCK_SIZE ∧
        exampleShared.inputRing.WF ∧ exampleShared.outputRing.WF) ∧
      ((audioCallback exampleBlock exampleInput BLOCK_SIZE exampleShared exampleBlock).ret = 0 ∧
      (exampleShared.outputRing.isEmpty →
        (audioCallback exampleBlock exampleInput BLOCK_SIZE exampleShared exampleBlock).outputBuffer
            = exampleInput ∧
          (audioCallback exampleBlock exampleInput BLOCK_SIZE exampleShared
            exampleBlock).state.outputRing = exampleShared.outputRing) ∧
      (¬ exampleShared.outputRing.isEmpty →
        ∃ oldest rest, exampleShared.outputRing.contents = oldest :: rest ∧
          (audioCallback exampleBlock exampleInput BLOCK_SIZE exampleShared
            exampleBlock).outputBuffer = oldest ∧
          (audioCallback exampleBlock exampleInput BLOCK_SIZE exampleShared
            exampleBlock).state.outputRing.contents = rest) ∧
      (¬ exampleShared.inputRing.isFull →
        (audioCallback exampleBlock exampleInput BLOCK_SIZE exampleShared
          exampleBlock).state.inputRing.contents
            = exampleShared.inputRing.contents ++ [exampleInput]) ∧
      (exampleShared.inputRing.isFull →
        (audioCallback exampleBlock exampleInput BLOCK_SIZE exampleShared
          exampleBlock).state.inputRing = exampleShared.inputRing)) :=
  ⟨⟨by simp [exampleInput], by simp [exampleBlock], drainedRing_wf, fullRing_wf⟩,
    audioCallback_block exampleBlock exampleInput exampleShared exampleBlock
      (by simp [exampleInput]) (by simp [exampleBlock]) (by simp [exampleBlock])
      drainedRing_wf fullRing_wf⟩

/-! ## The network pump -/

/-- C9. Backpressure drop: in `networkThreadFunc`, in every state in which the round trip has
succeeded (the thread is at the push of line 186) and `outputRing` is full, the processed block
is discarded, the shared state (so `outputRing`) is unchanged, no action is emitted (the
connection is not closed and the thread does not sleep), and control is at the test of the
inner loop for its next iteration. -/
theorem pump_backpressure_drop {α : Type} (env : Env α) (s : PumpState α)
    (hloc : s.loc = Loc.innerPush) (hfull : s.shared.outputRing.isFull) :
    (pumpStep env s).1.shared = s.shared ∧
      (pumpStep env s).2 = none ∧
      (pumpStep env s).1.sockOpen = s.sockOpen ∧
      (pumpStep env s).1.loc = Loc.innerCheck := by
  have hfail : (s.shared.outputRing.push s.outBlock).1 = false := by
    rw [SpscRingBuffer.push_fst]
    simpa [SpscRingBuffer.isFull] using hfull
  have hsnd := SpscRingBuffer.push_snd_of_fail hfail
  unfold pumpStep
  rw [hloc]
  simp [hsnd]

/-- The pump holds a processed block and finds the output ring full. -/
theorem pump_backpressure_drop_witness :
    (pushingPump.loc = Loc.innerPush ∧ pushingPump.shared.outputRing.isFull) ∧
      ((pumpStep failingSendEnv pushingPump).1.shared = pushingPump.shared ∧
        (pumpStep failingSendEnv pushingPump).2 = none ∧
        (pumpStep failingSendEnv pushingPump).1.sockOpen = pushingPump.sockOpen ∧
        (pumpStep failingSendEnv pushingPump).1.loc = Loc.innerCheck) :=
  ⟨⟨rfl, by decide⟩, pump_backpressure_drop failingSendEnv pushingPump rfl (by decide)⟩

/-- One step: an emitted action is one the location allows and every action allowed at the
next location may follow it; a silent step does not widen what may come next. -/
theorem pumpStep_follows {α : Type} (env : Env α) (s : PumpState α) :
    (∀ b, (pumpStep env s).2 = some b →
        NextAt s.loc b ∧ ∀ a, NextAt (pumpStep env s).1.loc a → Follows b a) ∧
      ((pumpStep env s).2 = none → ∀ a, NextAt (pumpStep env s).1.loc a → NextAt s.loc a) := by
  obtain ⟨loc, sh, ib, ob, so⟩ := s
  cases loc <;> simp only [pumpStep] <;> (try split_ifs) <;>
    simp [NextAt, Follows]

/-- Along every run the trace is a chain under `Follows`, and its first action is one the
starting location allows. -/
theorem runPump_chain {α : Type} (envs : Nat → Env α) :
    ∀ (fuel i : Nat) (s : PumpState α),
      (∀ a, (runPump envs fuel i s).1.head? = some a → NextAt s.loc a) ∧
        List.Chain' Follows (runPump envs fuel i s).1 := by
  intro fuel
  induction fuel with
  | zero =>
    intro i s
    simp [runPump]
  | succ fuel ih =>
    intro i s
    obtain ⟨hemit, hsilent⟩ :=
      pumpStep_follows (envs i) { s with shared := interfere (envs i) s.shared }
    obtain ⟨ihHead, ihChain⟩ :=
      ih (i + 1) (pumpStep (envs i) { s with shared := interfere (envs i) s.shared }).1
    simp only [runPump]
    cases hact : (pumpStep (envs i) { s with shared := interfere (envs i) s.shared }).2 with
    | none =>
      simp only [Option.toList, List.nil_append]
      exact ⟨fun a ha => hsilent hact a (ihHead a ha), ihChain⟩
    | some b =>
      obtain ⟨hb, hnext⟩ := hemit b hact
      simp only [Option.toList, List.singleton_append, List.head?_cons, Option.some.injEq]
      refine ⟨fun a ha => ha ▸ hb, ?_⟩
      rw [List.chain'_cons']
      exact ⟨fun a ha => hnext a (ihHead a (Option.mem_def.mp ha)), ihChain⟩

theorem silentSend_fails : (Client.sendAll silentRecv BLOCK_BYTES).ok = false := by
  unfold Client.sendAll
  rw [transferLoop_fail _ _ (by decide) (by decide)]

theorem failingSend_trace :
    networkThreadFunc (fun _ => failingSendEnv) 14 busyShared exampleBlock exampleBlock =
      [Action.socket true, Action.connect true, Action.send false,
        Action.close CloseSite.disconnect, Action.socket true, Action.connect true] := by
  simp [networkThreadFunc, runPump, pumpStart, pumpStep, interfere, failingSendEnv, busyShared,
    silentSend_fails, SpscRingBuffer.pop, fullRing]

/-- C10, as stated, fails: with the server reachable and `sendAll` failing, the thread closes the
connection and calls `::socket` and `::connect` again at once; no retry delay lies between the
close caused by the I/O failure and the next connect attempt. -/
theorem pump_reconnects_without_delay :
    delayedReconnect false false
      (networkThreadFunc (fun _ => failingSendEnv) 14 busyShared exampleBlock exampleBlock)
        = false := by
  rw [failingSend_trace]
  decide

/-- A run of `a + b` steps is a run of `a` steps followed by a run of `b` steps. -/
theorem runPump_add {α : Type} (envs : Nat → Env α) (a b : Nat) :
    ∀ (i : Nat) (s : PumpState α),
      runPump envs (a + b) i s =
        ((runPump envs a i s).1 ++ (runPump envs b (i + a) (runPump envs a i s).2).1,
          (runPump envs b (i + a) (runPump envs a i s).2).2) := by
  induction a with
  | zero =>
    intro i s
    simp [runPump]
  | succ a ih =>
    intro i s
    rw [show a + 1 + b = (a + b) + 1 by omega]
    simp only [runPump, ih, List.append_assoc]
    rw [show i + 1 + a = i + (a + 1) by omega]

theorem networkThreadFunc_add {α : Type} (envs : Nat → Env α) (n k : Nat)
    (shared : SharedState α) (inBlock outBlock : List α) :
    networkThreadFunc envs (n + k) shared inBlock outBlock =
      networkThreadFunc envs n shared inBlock outBlock ++
        (runPump envs k n (pumpStateAt envs n shared inBlock outBlock)).1 := by
  unfold networkThreadFunc pumpStateAt
  rw [runPump_add, Nat.zero_add]

theorem pumpStateAt_add {α : Type} (envs : Nat → Env α) (n k : Nat)
    (shared : SharedState α) (inBlock outBlock : List α) :
    pumpStateAt envs (n + k) shared inBlock outBlock =
      (runPump envs k n (pumpStateAt envs n shared inBlock outBlock)).2 := by
  unfold pumpStateAt
  rw [runPump_add, Nat.zero_add]

/-- Once the thread has exited it emits nothing. -/
theorem runPump_exited {α : Type} (envs : Nat → Env α) :
    ∀ (k i : Nat) (s : PumpState α), s.loc = Loc.exited → (runPump envs k i s).1 = [] := by
  intro k
  induction k with
  | zero =>
    intro i s _
    rfl
  | succ k ih =>
    intro i s h
    simp only [runPump, pumpStep, h, Option.toList, List.nil_append]
    exact ih _ _ rfl

theorem runPump_send_fail {α : Type} (envs : Nat → Env α) (i : Nat) (s : PumpState α)
    (hloc : s.loc = Loc.innerSend)
    (hfail : (Client.sendAll (envs i).sendCounts BLOCK_BYTES).ok = false) :
    (runPump envs 2 i s).1 = [Action.send false, Action.close CloseSite.disconnect] ∧
      (runPump envs 2 i s).2.loc = Loc.outerCheck ∧ (runPump envs 2 i s).2.sockOpen = false := by
  simp [runPump, pumpStep, hloc, hfail]

theorem runPump_recv_fail {α : Type} (envs : Nat → Env α) (i : Nat) (s : PumpState α)
    (hloc : s.loc = Loc.innerRecv)
    (hfail : (Client.recvAll (envs i).recvCounts BLOCK_BYTES).ok = false) :
    (runPump envs 2 i s).1 = [Action.receive false, Action.close CloseSite.disconnect] ∧
      (runPump envs 2 i s).2.loc = Loc.outerCheck ∧ (runPump envs 2 i s).2.sockOpen = false := by
  simp [runPump, pumpStep, hloc, hfail]

theorem runPump_reconnect {α : Type} (envs : Nat → Env α) (i : Nat) (s : PumpState α)
    (hloc : s.loc = Loc.outerCheck)
    (hrun : (interfere (envs i) s.shared).running = true)
    (hrun1 : (interfere (envs (i + 1)) (runPump envs 1 i s).2.shared).running = true) :
    (runPump envs 3 i s).1 = [Action.socket (envs (i + 2)).socketOk] ∧
      (runPump envs 3 i s).2.loc =
        (if (envs (i + 2)).socketOk then Loc.connInet else Loc.connSocketSleep) := by
  have hrun1' : (interfere (envs (i + 1)) (interfere (envs i) s.shared)).running = true := by
    simpa [runPump, pumpStep, hloc, hrun] using hrun1
  cases hs : (envs (i + 2)).socketOk <;> simp [runPump, pumpStep, hloc, hrun, hrun1', hs]

theorem runPump_stop {α : Type} (envs : Nat → Env α) (i : Nat) (s : PumpState α)
    (hloc : s.loc = Loc.outerCheck)
    (hrun : (interfere (envs i) s.shared).running = false) (k : Nat) :
    (runPump envs k i s).1 = [] := by
  cases k with
  | zero => rfl
  | succ k =>
    simp only [runPump, pumpStep, hloc, hrun, Option.toList, List.nil_append]
    exact runPump_exited envs k _ _ rfl

theorem runPump_connect {α : Type} (envs : Nat → Env α) (i : Nat) (s : PumpState α)
    (hloc : s.loc = Loc.connInet) (hinet : (envs i).inetOk = true) :
    (runPump envs 2 i s).1 = [Action.connect (envs (i + 1)).connectOk] := by
  cases hc : (envs (i + 1)).connectOk <;> simp [runPump, pumpStep, hloc, hinet, hc]

theorem runPump_socket_fail {α : Type} (envs : Nat → Env α) (i : Nat) (s : PumpState α)
    (hloc : s.loc = Loc.connSocket) (hfail : (envs i).socketOk = false) :
    (runPump envs 2 i s).1 = [Action.socket false, Action.sleepRetry] ∧
      (runPump envs 2 i s).2.loc = Loc.connCheck := by
  simp [runPump, pumpStep, hloc, hfail]

theorem runPump_connect_fail {α : Type} (envs : Nat → Env α) (i : Nat) (s : PumpState α)
    (hloc : s.loc = Loc.connConnect) (hfail : (envs i).connectOk = false) :
    (runPump envs 3 i s).1 =
        [Action.connect false, Action.close CloseSite.connectFailed, Action.sleepRetry] ∧
      (runPump envs 3 i s).2.loc = Loc.connCheck ∧ (runPump envs 3 i s).2.sockOpen = false := by
  simp [runPump, pumpStep, hloc, hfail]

theorem runPump_retry {α : Type} (envs : Nat → Env α) (i : Nat) (s : PumpState α)
    (hloc : s.loc = Loc.connCheck)
    (hrun : (interfere (envs i) s.shared).running = true) :
    (runPump envs 2 i s).1 = [Action.socket (envs (i + 1)).socketOk] := by
  cases hs : (envs (i + 1)).socketOk <;> simp [runPump, pumpStep, hloc, hrun, hs]

/-- C10, amended. In every run of the network pump, whenever a round trip fails (`sendAll` or
`recvAll` returns false) the connection is closed by the next step, and the next connection
attempt follows that close at once: with `running` still true the `::socket` call of the next
attempt is the next action, with no delay before it. The fixed retry delay elapses only after a
failed attempt (after a failed `::socket`, and after the close that follows a failed
`::connect`) and before the `::socket` call of the attempt after it. -/
theorem pump_trace_follows {α : Type} (envs : Nat → Env α) (shared : SharedState α)
    (inBlock outBlock : List α) : PumpReconnect envs shared inBlock outBlock := by
  have hclose : ∀ n,
      ((pumpStateAt envs n shared inBlock outBlock).loc = Loc.innerSend ∧
          (Client.sendAll (envs n).sendCounts BLOCK_BYTES).ok = false) ∨
        ((pumpStateAt envs n shared inBlock outBlock).loc = Loc.innerRecv ∧
          (Client.recvAll (envs n).recvCounts BLOCK_BYTES).ok = false) →
      networkThreadFunc envs (n + 2) shared inBlock outBlock =
          networkThreadFunc envs n shared inBlock outBlock ++
            [if (pumpStateAt envs n shared inBlock outBlock).loc = Loc.innerSend
              then Action.send false else Action.receive false,
              Action.close CloseSite.disconnect] ∧
        (pumpStateAt envs (n + 2) shared inBlock outBlock).loc = Loc.outerCheck ∧
        (pumpStateAt envs (n + 2) shared inBlock outBlock).sockOpen = false := by
    intro n h
    rw [networkThreadFunc_add, pumpStateAt_add]
    rcases h with ⟨hloc, hfail⟩ | ⟨hloc, hfail⟩
    · obtain ⟨h1, h2, h3⟩ := runPump_send_fail envs n _ hloc hfail
      exact ⟨by rw [h1, if_pos hloc], h2, h3⟩
    · obtain ⟨h1, h2, h3⟩ := runPump_recv_fail envs n _ hloc hfail
      exact ⟨by rw [h1, if_neg (by rw [hloc]; decide)], h2, h3⟩
  have hreconnect : ∀ n, (pumpStateAt envs n shared inBlock outBlock).loc = Loc.outerCheck →
      runningAt envs n shared inBlock outBlock = true →
      runningAt envs (n + 1) shared inBlock outBlock = true →
        networkThreadFunc envs (n + 3) shared inBlock outBlock =
            networkThreadFunc envs n shared inBlock outBlock ++
              [Action.socket (envs (n + 2)).socketOk] ∧
          (pumpStateAt envs (n + 3) shared inBlock outBlock).loc =
            (if (envs (n + 2)).socketOk then Loc.connInet else Loc.connSocketSleep) := by
    intro n hloc hrun hrun1
    rw [networkThreadFunc_add, pumpStateAt_add]
    unfold runningAt at hrun hrun1
    rw [pumpStateAt_add] at hrun1
    obtain ⟨h1, h2⟩ := runPump_reconnect envs n _ hloc hrun hrun1
    exact ⟨by rw [h1], h2⟩
  refine
    { chain := fun fuel => (runPump_chain envs fuel 0 (pumpStart shared inBlock outBlock)).2
      head := fun fuel a ha => ?_
      send_fail_closes := fun n hloc hfail => ?_
      recv_fail_closes := fun n hloc hfail => ?_
      reconnect_at_once := hreconnect
      failed_round_trip_reconnects := fun n h hrun hrun1 => ?_
      connect_follows := fun n hloc hinet => ?_
      stops_when_not_running := fun n hloc hrun k => ?_
      socket_fail_delays := fun n hloc hfail => ?_
      connect_fail_delays := fun n hloc hfail => ?_
      retry_after_delay := fun n hloc hrun => ?_ }
  · exact (runPump_chain envs fuel 0 (pumpStart shared inBlock outBlock)).1 a ha
  · have := hclose n (Or.inl ⟨hloc, hfail⟩)
    rwa [if_pos hloc] at this
  · have := hclose n (Or.inr ⟨hloc, hfail⟩)
    rwa [if_neg (by rw [hloc]; decide)] at this
  · obtain ⟨c1, c2, _⟩ := hclose n h
    obtain ⟨r1, _⟩ := hreconnect (n + 2) c2 hrun hrun1
    rw [show n + 5 = n + 2 + 3 by omega, r1, c1, List.append_assoc]
    rfl
  · rw [networkThreadFunc_add, runPump_connect envs n _ hloc hinet]
  · rw [networkThreadFunc_add, runPump_stop envs n _ hloc hrun k, List.append_nil]
  · rw [networkThreadFunc_add, pumpStateAt_add]
    obtain ⟨h1, h2⟩ := runPump_socket_fail envs n _ hloc hfail
    exact ⟨by rw [h1], h2⟩
  · rw [networkThreadFunc_add, pumpStateAt_add]
    obtain ⟨h1, h2, h3⟩ := runPump_connect_fail envs n _ hloc hfail
    exact ⟨by rw [h1], h2, h3⟩
  · rw [networkThreadFunc_add, runPump_retry envs n _ hloc hrun]

/-- With the server reachable and every `::send` returning 0, the thread is at `sendAll` after
seven steps; the call fails, the connection is closed, and the `::socket` call of the next
attempt is the action right after the close. -/
theorem pump_trace_follows_witness :
    (((pumpStateAt (fun _ => failingSendEnv) 7 busyShared exampleBlock exampleBlock).loc
          = Loc.innerSend ∧
        (Client.sendAll failingSendEnv.sendCounts BLOCK_BYTES).ok = false) ∧
      runningAt (fun _ => failingSendEnv) (7 + 2) busyShared exampleBlock exampleBlock = true ∧
      runningAt (fun _ => failingSendEnv) (7 + 3) busyShared exampleBlock exampleBlock = true) ∧
    networkThreadFunc (fun _ => failingSendEnv) (7 + 5) busyShared exampleBlock exampleBlock =
      networkThreadFunc (fun _ => failingSendEnv) 7 busyShared exampleBlock exampleBlock ++
        [Action.send false, Action.close CloseSite.disconnect, Action.socket true] := by
  have hloc : (pumpStateAt (fun _ => failingSendEnv) 7 busyShared exampleBlock exampleBlock).loc
      = Loc.innerSend := by
    simp [pumpStateAt, runPump, pumpStart, pumpStep, interfere, failingSendEnv, busyShared,
      SpscRingBuffer.pop, fullRing]
  have hfail : (Client.sendAll failingSendEnv.sendCounts BLOCK_BYTES).ok = false :=
    silentSend_fails
  have hrun2 : runningAt (fun _ => failingSendEnv) (7 + 2) busyShared exampleBlock exampleBlock
      = true := by
    simp [runningAt, pumpStateAt, runPump, pumpStart, pumpStep, interfere, failingSendEnv,
      busyShared, silentSend_fails, SpscRingBuffer.pop, fullRing]
  have hrun3 : runningAt (fun _ => failingSendEnv) (7 + 3) busyShared exampleBlock exampleBlock
      = true := by
    simp [runningAt, pumpStateAt, runPump, pumpStart, pumpStep, interfere, failingSendEnv,
      busyShared, silentSend_fails, SpscRingBuffer.pop, fullRing]
  have h := (pump_trace_follows (fun _ => failingSendEnv) busyShared exampleBlock
    exampleBlock).failed_round_trip_reconnects 7 (Or.inl ⟨hloc, hfail⟩) hrun2 hrun3
  rw [if_pos hloc] at h
  exact ⟨⟨⟨hloc, hfail⟩, hrun2, hrun3⟩, h⟩

/-! ## The spectral transform -/

namespace Server

theorem twiddle_eq_pow (sign : ℤ) (n j m : ℕ) :
    Complex.exp ((sign : ℂ) * (2 * Real.pi * Complex.I * ((j * m : ℕ) : ℂ) / (n : ℂ))) =
      Complex.exp ((sign : ℂ) * (2 * Real.pi * Complex.I * (m : ℂ) / (n : ℂ))) ^ j := by
  rw [← Complex.exp_nat_mul]
  congr 1
  push_cast
  ring

theorem twiddle_sum_zero (sign : ℤ) (hs : sign = 1 ∨ sign = -1) {n : ℕ} (m : ℕ)
    (hm : ¬ n ∣ m) :
    ∑ j in Finset.range n,
      Complex.exp ((sign : ℂ) * (2 * Real.pi * Complex.I * ((j * m : ℕ) : ℂ) / (n : ℂ))) = 0 := by
  rcases Nat.eq_zero_or_pos n with h0 | hpos
  · subst h0
    simp
  have hn : (n : ℂ) ≠ 0 := Nat.cast_ne_zero.mpr (by omega)
  simp only [twiddle_eq_pow]
  set w := Complex.exp ((sign : ℂ) * (2 * Real.pi * Complex.I * (m : ℂ) / (n : ℂ))) with hw
  have hpow : w ^ n = 1 := by
    rw [hw, ← Complex.exp_nat_mul]
    have : (n : ℂ) * ((sign : ℂ) * (2 * Real.pi * Complex.I * (m : ℂ) / (n : ℂ))) =
        ((sign * m : ℤ) : ℂ) * (2 * Real.pi * Complex.I) := by
      push_cast
      field_simp
      ring
    rw [this, Complex.exp_int_mul_two_pi_mul_I]
  have hne : w ≠ 1 := by
    intro h1
    rw [hw, Complex.exp_eq_one_iff] at h1
    obtain ⟨z, hz⟩ := h1
    have h2pi : (2 * Real.pi * Complex.I : ℂ) ≠ 0 := Complex.two_pi_I_ne_zero
    have hz2 : ((sign * m : ℤ) : ℂ) = ((z * n : ℤ) : ℂ) := by
      push_cast
      have : (sign : ℂ) * (m : ℂ) * (2 * Real.pi * Complex.I) =
          (z : ℂ) * (n : ℂ) * (2 * Real.pi * Complex.I) := by
        field_simp at hz
        linear_combination hz
      exact mul_right_cancel₀ h2pi this
    have hz3 : sign * (m : ℤ) = z * (n : ℤ) := by exact_mod_cast hz2
    apply hm
    have hdvd : (n : ℤ) ∣ (m : ℤ) := by
      rcases hs with hs | hs
      · exact ⟨z, by rw [hs] at hz3; linarith⟩
      · exact ⟨-z, by rw [hs] at hz3; linarith⟩
    exact Int.natCast_dvd_natCast.mp hdvd
  have hgeom := geom_sum_mul w n
  rw [hpow, sub_self] at hgeom
  exact (mul_eq_zero.mp hgeom).resolve_right (sub_ne_zero.mpr hne)

theorem blockSize_pos : 0 < BLOCK_SIZE := by decide

theorem blockSize_cast_ne_zero : (BLOCK_SIZE : ℝ) ≠ 0 :=
  Nat.cast_ne_zero.mpr (Nat.pos_iff_ne_zero.mp blockSize_pos)

theorem sign_forward : FFTW_FORWARD = 1 ∨ FFTW_FORWARD = -1 := Or.inr rfl

theorem sign_backward : FFTW_BACKWARD = 1 ∨ FFTW_BACKWARD = -1 := Or.inl rfl

/-- The transform of a constant buffer: `n * c` in bin 0 and zero in every other bin. -/
theorem fftwf_execute_const (sign : ℤ) (hs : sign = 1 ∨ sign = -1) {n : ℕ} (c : ℂ)
    (k : Fin n) :
    fftwf_execute sign (fun _ : Fin n => c) k = if (k : ℕ) = 0 then (n : ℂ) * c else 0 := by
  unfold fftwf_execute
  rw [← Finset.mul_sum]
  rw [Fin.sum_univ_eq_sum_range (fun j : ℕ => Complex.exp ((sign : ℂ) *
    (2 * Real.pi * Complex.I * ((j * (k : ℕ) : ℕ) : ℂ) / (n : ℂ)))) n]
  split_ifs with hk
  · rw [hk]
    simp [mul_comm]
  · rw [twiddle_sum_zero sign hs (k : ℕ)
      (fun hdvd => hk (Nat.eq_zero_of_dvd_of_lt hdvd k.isLt)), mul_zero]

/-- The transform of a buffer that is zero outside bin 0: the value of bin 0 in every bin. -/
theorem fftwf_execute_single (sign : ℤ) {n : ℕ} (bins : Fin n → ℂ)
    (hz : ∀ k : Fin n, (k : ℕ) ≠ 0 → bins k = 0) (y : ℂ)
    (h0 : ∀ k : Fin n, (k : ℕ) = 0 → bins k = y) (hn : 0 < n) (i : Fin n) :
    fftwf_execute sign bins i = y := by
  unfold fftwf_execute
  rw [Finset.sum_eq_single (⟨0, hn⟩ : Fin n)]
  · rw [h0 ⟨0, hn⟩ rfl]
    simp
  · intro k _ hk
    rw [hz k (fun h => hk (Fin.ext h)), zero_mul]
  · intro h
    exact absurd (Finset.mem_univ _) h

theorem loadInput_const (c : ℝ) : loadInput (fun _ => c) = fun _ => (c : ℂ) := by
  funext i
  rfl

theorem robotEffect_zero (freqDomain : Fin BLOCK_SIZE → ℂ) (k : Fin BLOCK_SIZE)
    (h : freqDomain k = 0) : robotEffect freqDomain k = 0 := by
  unfold robotEffect
  simp only [h, Complex.zero_re, Complex.zero_im, mul_zero, add_zero, Real.sqrt_zero]
  rfl

theorem robotEffect_im (freqDomain : Fin BLOCK_SIZE → ℂ) (k : Fin BLOCK_SIZE) :
    (robotEffect freqDomain k).im = 0 := rfl

/-- On bins without an imaginary part the low-pass loop multiplies the upper half by 0.05. -/
theorem lowPass_of_real (freqDomain : Fin BLOCK_SIZE → ℂ) (k : Fin BLOCK_SIZE)
    (him : (freqDomain k).im = 0) :
    lowPass freqDomain k =
      if BLOCK_SIZE / 2 ≤ (k : ℕ) then ((0.05 : ℝ) : ℂ) * freqDomain k else freqDomain k := by
  unfold lowPass
  split_ifs
  · apply Complex.ext
    · simp [mul_comm]
    · simp [him]
  · rfl

theorem effectBins_const (c : ℝ) (k : Fin BLOCK_SIZE) :
    effectBins (fun _ => c) k = if (k : ℕ) = 0 then ((|(BLOCK_SIZE : ℝ) * c| : ℝ) : ℂ) else 0 := by
  unfold effectBins
  rw [lowPass_of_real _ _ (robotEffect_im _ _)]
  have hfwd := fftwf_execute_const FFTW_FORWARD sign_forward (c : ℂ) k
  rw [← loadInput_const] at hfwd
  split_ifs with hhi hk hk
  · exfalso
    rw [hk] at hhi
    revert hhi
    decide
  · rw [if_neg hk] at hfwd
    rw [robotEffect_zero _ _ hfwd, mul_zero]
  · rw [if_pos hk] at hfwd
    unfold robotEffect
    rw [hfwd]
    apply Complex.ext
    · have : ((BLOCK_SIZE : ℂ) * (c : ℂ)) = (((BLOCK_SIZE : ℝ) * c : ℝ) : ℂ) := by push_cast; rfl
      simp only [this, Complex.ofReal_re, Complex.ofReal_im, mul_zero, add_zero]
      exact Real.sqrt_mul_self_eq_abs _
    · simp
  · rw [if_neg hk] at hfwd
    exact robotEffect_zero _ _ hfwd

theorem processBlock_const (c : ℝ) : processBlock (fun _ => c) = fun _ => |c| := by
  funext i
  unfold processBlock normalize
  rw [fftwf_execute_single FFTW_BACKWARD (effectBins fun _ => c)
    (fun k hk => by rw [effectBins_const, if_neg hk])
    ((|(BLOCK_SIZE : ℝ) * c| : ℝ) : ℂ)
    (fun k hk => by rw [effectBins_const, if_pos hk]) blockSize_pos i]
  rw [Complex.ofReal_re, abs_mul, abs_of_pos (Nat.cast_pos.mpr blockSize_pos)]
  field_simp [blockSize_cast_ne_zero]

/-- C7. DC-bin property: over exact real arithmetic, for every constant input block of value
`c`, every bin other than bin 0 is zero after the effect, bin 0 holds the bin-0 magnitude
`|BLOCK_SIZE * c|`, which is the value the robot effect gave it (no 0.05 attenuation), and the
output block is the constant block of value `|c|`, equal to the input when `c >= 0`. -/
theorem dc_block_preserved (c : ℝ) :
    (∀ k : Fin BLOCK_SIZE, (k : ℕ) ≠ 0 → effectBins (fun _ => c) k = 0) ∧
      (∀ k : Fin BLOCK_SIZE, (k : ℕ) = 0 →
        effectBins (fun _ => c) k = ((|(BLOCK_SIZE : ℝ) * c| : ℝ) : ℂ) ∧
          effectBins (fun _ => c) k =
            robotEffect (fftwf_execute FFTW_FORWARD (loadInput fun _ => c)) k) ∧
      processBlock (fun _ => c) = (fun _ => |c|) ∧
      (0 ≤ c → processBlock (fun _ => c) = fun _ => c) := by
  refine ⟨fun k hk => by rw [effectBins_const, if_neg hk], fun k hk => ⟨?_, ?_⟩,
    processBlock_const c, fun hc => ?_⟩
  · rw [effectBins_const, if_pos hk]
  · unfold effectBins
    rw [lowPass_of_real _ _ (robotEffect_im _ _), if_neg]
    rw [hk]
    decide
  · rw [processBlock_const, abs_of_nonneg hc]

/-- A constant block of value 2 comes back unchanged. -/
theorem dc_block_preserved_witness :
    (0 : ℝ) ≤ 2 ∧ processBlock (fun _ => (2 : ℝ)) = fun _ => (2 : ℝ) :=
  ⟨by norm_num, (dc_block_preserved 2).2.2.2 (by norm_num)⟩

/-- The transform commutes with scaling every bin by the same factor. -/
theorem fftwf_execute_smul (sign : ℤ) {n : ℕ} (a : ℂ) (bins : Fin n → ℂ) (i : Fin n) :
    fftwf_execute sign (fun k => a * bins k) i = a * fftwf_execute sign bins i := by
  unfold fftwf_execute
  rw [Finset.mul_sum]
  exact Finset.sum_congr rfl (fun j _ => by ring)

theorem effectBins_of_low_zero (inBlock : Fin BLOCK_SIZE → ℝ)
    (h : ∀ k : Fin BLOCK_SIZE, (k : ℕ) < BLOCK_SIZE / 2 →
      fftwf_execute FFTW_FORWARD (loadInput inBlock) k = 0) :
    effectBins inBlock = fun k => ((0.05 : ℝ) : ℂ) *
      robotEffect (fftwf_execute FFTW_FORWARD (loadInput inBlock)) k := by
  funext k
  unfold effectBins
  rw [lowPass_of_real _ _ (robotEffect_im _ _)]
  split_ifs with hk
  · rfl
  · rw [robotEffect_zero _ _ (h k (not_le.mp hk)), mul_zero]

/-- C8. Attenuation check: over exact real arithmetic, for every input block whose forward
transform is zero in every bin `k < BLOCK_SIZE / 2`, each output sample equals 0.05 times the
sample produced by the same pipeline with the low-pass loop removed. -/
theorem high_bins_attenuated (inBlock : Fin BLOCK_SIZE → ℝ)
    (h : ∀ k : Fin BLOCK_SIZE, (k : ℕ) < BLOCK_SIZE / 2 →
      fftwf_execute FFTW_FORWARD (loadInput inBlock) k = 0) (i : Fin BLOCK_SIZE) :
    processBlock inBlock i = 0.05 * processBlockNoLowPass inBlock i := by
  unfold processBlock processBlockNoLowPass normalize
  rw [effectBins_of_low_zero inBlock h, fftwf_execute_smul, Complex.re_ofReal_mul]
  ring

theorem half_turn :
    Complex.exp ((FFTW_FORWARD : ℂ) *
      (2 * Real.pi * Complex.I * ((BLOCK_SIZE / 2 : ℕ) : ℂ) / (BLOCK_SIZE : ℂ))) = -1 := by
  have harg : (FFTW_FORWARD : ℂ) *
      (2 * Real.pi * Complex.I * ((BLOCK_SIZE / 2 : ℕ) : ℂ) / (BLOCK_SIZE : ℂ)) =
        -(Real.pi * Complex.I) := by
    have h1 : ((BLOCK_SIZE / 2 : ℕ) : ℂ) = 512 := by
      have : BLOCK_SIZE / 2 = 512 := by decide
      rw [this]
      norm_num
    have h2 : (BLOCK_SIZE : ℂ) = 1024 := by
      have : BLOCK_SIZE = 1024 := rfl
      rw [this]
      norm_num
    rw [h1, h2]
    simp only [FFTW_FORWARD]
    push_cast
    ring
  rw [harg, Complex.exp_neg, Complex.exp_pi_mul_I]
  norm_num

theorem nyquist_low_bins_zero (k : Fin BLOCK_SIZE) (hk : (k : ℕ) < BLOCK_SIZE / 2) :
    fftwf_execute FFTW_FORWARD (loadInput nyquistBlock) k = 0 := by
  have hterm : ∀ j : Fin BLOCK_SIZE,
      loadInput nyquistBlock j * Complex.exp ((FFTW_FORWARD : ℂ) *
        (2 * Real.pi * Complex.I * (((j : ℕ) * (k : ℕ) : ℕ) : ℂ) / (BLOCK_SIZE : ℂ))) =
      Complex.exp ((FFTW_FORWARD : ℂ) * (2 * Real.pi * Complex.I *
        (((j : ℕ) * (BLOCK_SIZE / 2 + (k : ℕ)) : ℕ) : ℂ) / (BLOCK_SIZE : ℂ))) := by
    intro j
    have hload : loadInput nyquistBlock j = (-1 : ℂ) ^ (j : ℕ) := by
      have : loadInput nyquistBlock j = (((-1 : ℝ) ^ (j : ℕ) : ℝ) : ℂ) := rfl
      rw [this]
      push_cast
      rfl
    rw [hload, twiddle_eq_pow, twiddle_eq_pow FFTW_FORWARD BLOCK_SIZE j (BLOCK_SIZE / 2 + k),
      ← half_turn, ← mul_pow, ← Complex.exp_add]
    congr 2
    push_cast
    ring
  unfold fftwf_execute
  rw [Finset.sum_congr rfl (fun j _ => hterm j)]
  rw [Fin.sum_univ_eq_sum_range (fun j : ℕ => Complex.exp ((FFTW_FORWARD : ℂ) *
    (2 * Real.pi * Complex.I * ((j * (BLOCK_SIZE / 2 + (k : ℕ)) : ℕ) : ℂ) / (BLOCK_SIZE : ℂ))))
    BLOCK_SIZE]
  apply twiddle_sum_zero FFTW_FORWARD sign_forward
  intro hdvd
  have hsize : BLOCK_SIZE = 1024 := rfl
  have hlt : BLOCK_SIZE / 2 + (k : ℕ) < BLOCK_SIZE := by omega
  have := Nat.eq_zero_of_dvd_of_lt hdvd hlt
  omega

/-- The Nyquist block has no content below bin `BLOCK_SIZE / 2`, and its sample 3 comes out
attenuated by 0.05. -/
theorem high_bins_attenuated_witness :
    (∀ k : Fin BLOCK_SIZE, (k : ℕ) < BLOCK_SIZE / 2 →
        fftwf_execute FFTW_FORWARD (loadInput nyquistBlock) k = 0) ∧
      processBlock nyquistBlock ⟨3, by decide⟩ =
        0.05 * processBlockNoLowPass nyquistBlock ⟨3, by decide⟩ :=
  ⟨nyquist_low_bins_zero,
    high_bins_attenuated nyquistBlock nyquist_low_bins_zero ⟨3, by decide⟩⟩

end Server

end SocketDSP
